import Mathlib

/-!
Verification of the beatbox-recorder core (src/index.ts) against its
natural-language specification.

The embedding is shallow:
  * `Json` is the parse tree of a JSON document; the textual transport
    (JSON.stringify rendering / JSON.parse grammar) is modelled by the
    renderer `renderJson`, and files carry documents at parse-tree level
    (`FileContent.doc`), relying on the JSON library contract
    parse (render j) = j.  A malformed file is `FileContent.raw`.
  * `JVal` is an (acyclic) JavaScript runtime value as seen by the codec.
    A `Date` is represented by its toISOString rendering, an `Error` by its
    name/message/stack strings, a function by its name.  Cyclic values are
    modelled separately by an explicit heap (`Heap`, below), since an
    inductive value cannot contain itself.
  * Machine integers of the md5 hash are `Nat` with explicit `% 2^32`.
  * Fallible operations return `Except` / `Option`; thrown JS errors are
    `JsErr` values carrying the error class that the source inspects
    (SyntaxError / TypeError / fs error codes).
-/

set_option maxRecDepth 8000

namespace Beatbox

/-- A JSON document at parse-tree level (the image of JSON.parse without a
reviver, and the domain of the renderer).  Numbers are modelled as integers:
no claim depends on float formatting. -/
inductive Json where
  | null : Json
  | bool (b : Bool) : Json
  | num (n : Int) : Json
  | str (s : String) : Json
  | arr (elems : List Json) : Json
  | obj (fields : List (String × Json)) : Json

/-- A JavaScript runtime value, restricted to the acyclic fragment the codec
manipulates.  `undef` is the JS value undefined.  `date` carries the
toISOString rendering of the instant, `regexp` its source and flags,
`error` its name, message and stack, `fn` a live function (only its name is
observable to the codec), `restoredFn` the throwing placeholder produced by
the reviver for a Function envelope, `promise` a pending promise and
`rejectedPromise` the already-rejected promise produced by the reviver for a
Promise envelope. -/
inductive JVal where
  | undef : JVal
  | null : JVal
  | bool (b : Bool) : JVal
  | num (n : Int) : JVal
  | str (s : String) : JVal
  | arr (elems : List JVal) : JVal
  | obj (fields : List (String × JVal)) : JVal
  | set (elems : List JVal) : JVal
  | map (entries : List (JVal × JVal)) : JVal
  | date (iso : String) : JVal
  | regexp (source flags : String) : JVal
  | error (name message stack : String) : JVal
  | fn (name : String) : JVal
  | restoredFn (name : String) : JVal
  | promise : JVal
  | rejectedPromise : JVal

/-- Ordered association-list lookup (models JS property access on a
string-keyed object). -/
def lookupKey {α : Type} : List (String × α) → String → Option α
  | [], _ => none
  | (k1, v1) :: rest, k => if k1 = k then some v1 else lookupKey rest k

/-- Ordered association-list update: `o[k] = v` keeps the position of an
existing key and appends a new key at the end (JS insertion order). -/
def setEntry {α : Type} : List (String × α) → String → α → List (String × α)
  | [], k, v => [(k, v)]
  | (k1, v1) :: rest, k, v =>
    if k1 = k then (k, v) :: rest else (k1, v1) :: setEntry rest k v

/-- Remove a key from an association list (models fs.rename removing the
source path). -/
def removeEntry {α : Type} : List (String × α) → String → List (String × α)
  | [], _ => []
  | (k1, v1) :: rest, k =>
    if k1 = k then rest else (k1, v1) :: removeEntry rest k

/-- The name label the replacer stores for a function: value.name, with the
falsy empty string replaced by "anonymous" (src line 62). -/
def fnLabel (name : String) : String :=
  if name = "" then "anonymous" else name

/-!
`jsonStringify` models `JSON.stringify(v, safeJsonReplacer)` at parse-tree
level, following SerializeJSONProperty: at every node the toJSON method runs
FIRST (so a Date becomes its ISO string before the replacer can see it — the
`value instanceof Date` branch of safeJsonReplacer is unreachable from
stringify), then the replacer maps Set/Map/Function/RegExp/Error/Promise to
their tagged envelope objects, then objects and arrays are walked
recursively; an undefined member is dropped from an object and becomes null
in an array; the result is `none` exactly when the top-level value
serializes to undefined.  The cycle branch of the replacer is modelled in
the heap section below, where cycles are expressible.
-/
mutual

def jsonStringify : JVal → Option Json
  | .undef => none
  | .null => some .null
  | .bool b => some (.bool b)
  | .num n => some (.num n)
  | .str s => some (.str s)
  | .date iso => some (.str iso)
  | .arr xs => some (.arr (stringifyElems xs))
  | .obj kvs => some (.obj (stringifyFields kvs))
  | .set xs =>
    some (.obj [("__type", .str "Set"), ("value", .arr (stringifyElems xs))])
  | .map es =>
    some (.obj [("__type", .str "Map"), ("value", .arr (stringifyEntries es))])
  | .regexp source flags =>
    some (.obj [("__type", .str "RegExp"), ("source", .str source), ("flags", .str flags)])
  | .error name message stack =>
    some (.obj [("__type", .str "Error"), ("name", .str name),
                ("message", .str message), ("stack", .str stack)])
  | .fn name => some (.obj [("__type", .str "Function"), ("name", .str (fnLabel name))])
  | .restoredFn _ =>
    some (.obj [("__type", .str "Function"), ("name", .str "anonymous")])
  | .promise => some (.obj [("__type", .str "Promise"), ("status", .str "pending")])
  | .rejectedPromise => some (.obj [("__type", .str "Promise"), ("status", .str "pending")])

def stringifyElems : List JVal → List Json
  | [] => []
  | x :: xs => (jsonStringify x).getD .null :: stringifyElems xs

def stringifyFields : List (String × JVal) → List (String × Json)
  | [] => []
  | (k, v) :: rest =>
    match jsonStringify v with
    | some j => (k, j) :: stringifyFields rest
    | none => stringifyFields rest

def stringifyEntries : List (JVal × JVal) → List Json
  | [] => []
  | (k, v) :: rest =>
    .arr [(jsonStringify k).getD .null, (jsonStringify v).getD .null] :: stringifyEntries rest

end

/-- Error codes of the file-system operations the source distinguishes:
a missing file (ENOENT) versus any other I/O failure. -/
inductive FsErr where
  | enoent : FsErr
  | eio : FsErr
deriving Repr, DecidableEq

/-- A thrown JavaScript error, carrying exactly the classification the
source inspects: `instanceof SyntaxError`, the fs error code, and the
message text read back via error.message. -/
inductive JsErr where
  | typeError (message : String) : JsErr
  | syntaxError (message : String) : JsErr
  | rangeError (message : String) : JsErr
  | fsThrow (e : FsErr) : JsErr
  | error (message : String) : JsErr
deriving Repr, DecidableEq

/-- A stack-exhaustion RangeError. -/
def JsErr.isRangeError : JsErr → Bool
  | .rangeError _ => true
  | _ => false

/-- The `error instanceof SyntaxError` test of loadStorage. -/
def JsErr.isSyntaxError : JsErr → Bool
  | .syntaxError _ => true
  | _ => false

/-- The `(error as NodeJS.ErrnoException).code === ENOENT` test. -/
def JsErr.isEnoent : JsErr → Bool
  | .fsThrow .enoent => true
  | _ => false

/-- error.message (every modelled error is an Error instance). -/
def jsErrMessage : JsErr → String
  | .typeError m => m
  | .syntaxError m => m
  | .rangeError m => m
  | .fsThrow .enoent => "ENOENT: no such file or directory"
  | .fsThrow .eio => "EIO: i/o error"
  | .error m => m

/-- Flag validation performed by the RegExp constructor: every flag must be
one of d g i m s u v y and none may repeat, else a SyntaxError is thrown
(src line 107 calls new RegExp(value.source, value.flags)). -/
def validFlags (flags : String) : Bool :=
  flags.data.all (fun c => [String.singleton c].all (fun _ =>
    c = 'd' ∨ c = 'g' ∨ c = 'i' ∨ c = 'm' ∨ c = 's' ∨ c = 'u' ∨ c = 'v' ∨ c = 'y')) &&
  noDupChars flags.data
where
  noDupChars : List Char → Bool
    | [] => true
    | c :: rest => !(rest.contains c) && noDupChars rest

/-- A string-valued field of a revived envelope object; payload shapes other
than a string do not arise from envelopes the replacer writes and are
modelled by the empty string. -/
def strField (kvs : List (String × JVal)) (k : String) : String :=
  match lookupKey kvs k with
  | some (.str s) => s
  | _ => ""

/-- One `[key, value]` entry consumed by `new Map(iterable)`: a non-object
entry throws a TypeError; an object entry contributes its element 0 and
element 1 (undefined when absent). -/
def mapEntryOf : JVal → Except JsErr (JVal × JVal)
  | .arr [] => .ok (.undef, .undef)
  | .arr [a] => .ok (a, .undef)
  | .arr (a :: b :: _) => .ok (a, b)
  | .obj kvs => .ok ((lookupKey kvs "0").getD .undef, (lookupKey kvs "1").getD .undef)
  | .set _ => .ok (.undef, .undef)
  | .map _ => .ok (.undef, .undef)
  | .date _ => .ok (.undef, .undef)
  | .regexp _ _ => .ok (.undef, .undef)
  | .error _ _ _ => .ok (.undef, .undef)
  | .fn _ => .ok (.undef, .undef)
  | .restoredFn _ => .ok (.undef, .undef)
  | .promise => .ok (.undef, .undef)
  | .rejectedPromise => .ok (.undef, .undef)
  | _ => .error (.typeError "Iterator value is not an entry object")

def mapEntriesOf : List JVal → Except JsErr (List (JVal × JVal))
  | [] => .ok []
  | e :: rest =>
    match mapEntryOf e with
    | .ok p =>
      match mapEntriesOf rest with
      | .ok ps => .ok (p :: ps)
      | .error err => .error err
    | .error err => .error err

/-- safeJsonReviver (src lines 97-125), applied to an object node whose
members have already been revived (JSON.parse internalizes bottom-up).
Envelope payload shapes that only hand-crafted files could contain (for
example a non-array Set payload, for which new Set would accept any
iterable) are modelled as constructor failures; no claim exercises them.
The Date arm keeps the ISO payload (new Date on a toISOString rendering
denotes the same instant); pattern-syntax validation of a RegExp source is
not modelled, flag validation is. -/
def applyReviver (kvs : List (String × JVal)) : Except JsErr JVal :=
  match lookupKey kvs "__type" with
  | none => .ok (.obj kvs)
  | some t =>
    match t with
    | .str "Set" =>
      match lookupKey kvs "value" with
      | some (.arr xs) => .ok (.set xs)
      | none => .ok (.set [])
      | some _ => .error (.typeError "value is not iterable")
    | .str "Map" =>
      match lookupKey kvs "value" with
      | some (.arr entries) =>
        match mapEntriesOf entries with
        | .ok ps => .ok (.map ps)
        | .error err => .error err
      | none => .ok (.map [])
      | some _ => .error (.typeError "value is not iterable")
    | .str "Date" =>
      match lookupKey kvs "value" with
      | some (.str s) => .ok (.date s)
      | _ => .ok (.date "Invalid Date")
    | .str "RegExp" =>
      match lookupKey kvs "source", lookupKey kvs "flags" with
      | some (.str s), some (.str f) =>
        if validFlags f then .ok (.regexp s f)
        else .error (.syntaxError ("Invalid flags supplied to RegExp constructor: " ++ f))
      | _, _ => .error (.typeError "RegExp envelope payload outside the modelled fragment")
    | .str "Error" =>
      .ok (.error (strField kvs "name") (strField kvs "message") (strField kvs "stack"))
    | .str "Function" => .ok (.restoredFn (strField kvs "name"))
    | .str "Promise" => .ok .rejectedPromise
    | _ => .ok (.obj kvs)

/-! JSON.parse(text, safeJsonReviver) on the parse tree of text: members are
revived bottom-up, then the reviver runs at each object node.  A reviver
throw (for example new RegExp with invalid flags) propagates out of
JSON.parse. -/
mutual

def jsonParse : Json → Except JsErr JVal
  | .null => .ok .null
  | .bool b => .ok (.bool b)
  | .num n => .ok (.num n)
  | .str s => .ok (.str s)
  | .arr xs =>
    match parseElems xs with
    | .ok vs => .ok (.arr vs)
    | .error e => .error e
  | .obj kvs =>
    match parseFields kvs with
    | .ok kvs2 => applyReviver kvs2
    | .error e => .error e

def parseElems : List Json → Except JsErr (List JVal)
  | [] => .ok []
  | x :: xs =>
    match jsonParse x with
    | .ok v =>
      match parseElems xs with
      | .ok vs => .ok (v :: vs)
      | .error e => .error e
    | .error e => .error e

def parseFields : List (String × Json) → Except JsErr (List (String × JVal))
  | [] => .ok []
  | (k, j) :: rest =>
    match jsonParse j with
    | .ok v =>
      match parseFields rest with
      | .ok kvs => .ok ((k, v) :: kvs)
      | .error e => .error e
    | .error e => .error e

end

/-- Lower-case hex digit of a nibble. -/
def hexDigit (n : Nat) : Char :=
  if n < 10 then Char.ofNat (48 + n) else Char.ofNat (87 + n)

/-- JSON string escaping as performed by JSON.stringify (QuoteJSONString). -/
def escapeChar (c : Char) : String :=
  if c = '"' then "\\\""
  else if c = '\\' then "\\\\"
  else if c = '\x08' then "\\b"
  else if c = '\t' then "\\t"
  else if c = '\n' then "\\n"
  else if c = '\x0c' then "\\f"
  else if c = '\r' then "\\r"
  else if c.toNat < 32 then
    "\\u00" ++ String.mk [hexDigit (c.toNat / 16), hexDigit (c.toNat % 16)]
  else String.singleton c

def quoteString (s : String) : String :=
  "\"" ++ String.join (s.data.map escapeChar) ++ "\""

/-! Compact textual rendering of a JSON document (JSON.stringify with no
gap), the canonical encoding fed to the hash. -/
mutual

def renderJson : Json → String
  | .null => "null"
  | .bool true => "true"
  | .bool false => "false"
  | .num n => toString n
  | .str s => quoteString s
  | .arr xs => "[" ++ renderElems xs ++ "]"
  | .obj kvs => "\x7b" ++ renderFields kvs ++ "\x7d"

def renderElems : List Json → String
  | [] => ""
  | [x] => renderJson x
  | x :: y :: rest => renderJson x ++ "," ++ renderElems (y :: rest)

def renderFields : List (String × Json) → String
  | [] => ""
  | [(k, v)] => quoteString k ++ ":" ++ renderJson v
  | (k, v) :: f :: rest =>
    quoteString k ++ ":" ++ renderJson v ++ "," ++ renderFields (f :: rest)

end

/-! Pretty rendering with a two-space gap: JSON.stringify(v, null, 2), used
by the not-found error message of both wrappers. -/
mutual

def renderPretty (indent : String) : Json → String
  | .null => "null"
  | .bool true => "true"
  | .bool false => "false"
  | .num n => toString n
  | .str s => quoteString s
  | .arr [] => "[]"
  | .arr (x :: xs) =>
    "[\n" ++ renderPrettyElems (indent ++ "  ") (x :: xs) ++ "\n" ++ indent ++ "]"
  | .obj [] => "\x7b\x7d"
  | .obj (f :: fs) =>
    "\x7b\n" ++ renderPrettyFields (indent ++ "  ") (f :: fs) ++ "\n" ++ indent ++ "\x7d"

def renderPrettyElems (indent : String) : List Json → String
  | [] => ""
  | [x] => indent ++ renderPretty indent x
  | x :: y :: rest =>
    indent ++ renderPretty indent x ++ ",\n" ++ renderPrettyElems indent (y :: rest)

def renderPrettyFields (indent : String) : List (String × Json) → String
  | [] => ""
  | [(k, v)] => indent ++ quoteString k ++ ": " ++ renderPretty indent v
  | (k, v) :: f :: rest =>
    indent ++ quoteString k ++ ": " ++ renderPretty indent v ++ ",\n" ++
      renderPrettyFields indent (f :: rest)

end

/-! JSON.stringify with NO replacer (the call building the not-found
message, src lines 207 and 265): toJSON still turns a Date into its ISO
string, functions serialize as undefined, and Set/Map/RegExp/Error/Promise
instances expose no own enumerable properties, so they render as empty
objects. -/
mutual

def stringifyPlain : JVal → Option Json
  | .undef => none
  | .null => some .null
  | .bool b => some (.bool b)
  | .num n => some (.num n)
  | .str s => some (.str s)
  | .date iso => some (.str iso)
  | .arr xs => some (.arr (plainElems xs))
  | .obj kvs => some (.obj (plainFields kvs))
  | .set _ => some (.obj [])
  | .map _ => some (.obj [])
  | .regexp _ _ => some (.obj [])
  | .error _ _ _ => some (.obj [])
  | .fn _ => none
  | .restoredFn _ => none
  | .promise => some (.obj [])
  | .rejectedPromise => some (.obj [])

def plainElems : List JVal → List Json
  | [] => []
  | x :: xs => (stringifyPlain x).getD .null :: plainElems xs

def plainFields : List (String × JVal) → List (String × Json)
  | [] => []
  | (k, v) :: rest =>
    match stringifyPlain v with
    | some j => (k, j) :: plainFields rest
    | none => plainFields rest

end

/-- The message of the error thrown on a playback miss (src lines 206-208
and 264-266). -/
def notFoundMessage (args : List JVal) : String :=
  "No recorded result found for arguments: " ++
    renderPretty "" ((stringifyPlain (.arr args)).getD .null)

/-- The result record of trySerialize (src lines 15-19). -/
structure SerializationResult where
  success : Bool
  data : Option String
  error : Option String
deriving Repr, DecidableEq

/-- trySerialize (src lines 127-139): stringify with the replacer, then
verify synchronously that the text parses back through the reviver, failing
fast if the verification pass throws.  When stringify returns undefined
(top-level undefined value), JSON.parse(undefined) throws a SyntaxError. -/
def trySerialize (v : JVal) : SerializationResult :=
  match jsonStringify v with
  | none => ⟨false, none, some "Unexpected token u in JSON at position 0"⟩
  | some j =>
    match jsonParse j with
    | .ok _ => ⟨true, some (renderJson j), none⟩
    | .error e => ⟨false, none, some (jsErrMessage e)⟩

/-- decode after encode: the composite the round-trip law speaks about.
When encode yields no text at all the subsequent parse throws. -/
def encodeDecode (v : JVal) : Except JsErr JVal :=
  match jsonStringify v with
  | none => .error (.syntaxError "Unexpected token u in JSON at position 0")
  | some j => jsonParse j

/-- UTF-8 encoding of one scalar value (Lean chars carry no surrogates). -/
def utf8Char (c : Char) : List Nat :=
  let n := c.toNat
  if n < 128 then [n]
  else if n < 2048 then [192 + n / 64, 128 + n % 64]
  else if n < 65536 then [224 + n / 4096, 128 + n / 64 % 64, 128 + n % 64]
  else [240 + n / 262144, 128 + n / 4096 % 64, 128 + n / 64 % 64, 128 + n % 64]

/-- The byte sequence crypto hashes for a string (default utf8 encoding). -/
def utf8Bytes (s : String) : List Nat :=
  s.data.foldr (fun c acc => utf8Char c ++ acc) []

/-! The md5 digest (crypto.createHash(md5), src lines 35-38), computed over
`Nat` with explicit reduction mod 2^32. -/

def w32 (n : Nat) : Nat := n % 4294967296

def not32 (x : Nat) : Nat := 4294967295 ^^^ w32 x

def rotl32 (x s : Nat) : Nat := w32 ((w32 x <<< s) + (w32 x >>> (32 - s)))

/-- The 64 round constants floor(abs(sin(i+1)) * 2^32). -/
def md5K : List Nat :=
  [0xd76aa478, 0xe8c7b756, 0x242070db, 0xc1bdceee,
   0xf57c0faf, 0x4787c62a, 0xa8304613, 0xfd469501,
   0x698098d8, 0x8b44f7af, 0xffff5bb1, 0x895cd7be,
   0x6b901122, 0xfd987193, 0xa679438e, 0x49b40821,
   0xf61e2562, 0xc040b340, 0x265e5a51, 0xe9b6c7aa,
   0xd62f105d, 0x02441453, 0xd8a1e681, 0xe7d3fbc8,
   0x21e1cde6, 0xc33707d6, 0xf4d50d87, 0x455a14ed,
   0xa9e3e905, 0xfcefa3f8, 0x676f02d9, 0x8d2a4c8a,
   0xfffa3942, 0x8771f681, 0x6d9d6122, 0xfde5380c,
   0xa4beea44, 0x4bdecfa9, 0xf6bb4b60, 0xbebfbc70,
   0x289b7ec6, 0xeaa127fa, 0xd4ef3085, 0x04881d05,
   0xd9d4d039, 0xe6db99e5, 0x1fa27cf8, 0xc4ac5665,
   0xf4292244, 0x432aff97, 0xab9423a7, 0xfc93a039,
   0x655b59c3, 0x8f0ccc92, 0xffeff47d, 0x85845dd1,
   0x6fa87e4f, 0xfe2ce6e0, 0xa3014314, 0x4e0811a1,
   0xf7537e82, 0xbd3af235, 0x2ad7d2bb, 0xeb86d391]

/-- The per-round left-rotation amounts. -/
def md5S : List Nat :=
  [7, 12, 17, 22, 7, 12, 17, 22, 7, 12, 17, 22, 7, 12, 17, 22,
   5, 9, 14, 20, 5, 9, 14, 20, 5, 9, 14, 20, 5, 9, 14, 20,
   4, 11, 16, 23, 4, 11, 16, 23, 4, 11, 16, 23, 4, 11, 16, 23,
   6, 10, 15, 21, 6, 10, 15, 21, 6, 10, 15, 21, 6, 10, 15, 21]

/-- Little-endian bytes of one 32-bit word. -/
def leBytes4 (w : Nat) : List Nat :=
  (List.range 4).map fun k => w / 256 ^ k % 256

/-- Little-endian bytes of the 64-bit message bit length. -/
def leBytes8 (n : Nat) : List Nat :=
  (List.range 8).map fun k => n / 256 ^ k % 256

/-- md5 padding: a 0x80 byte, zeros to 56 mod 64, then the bit length. -/
def md5Pad (msg : List Nat) : List Nat :=
  msg ++ [128] ++ List.replicate ((119 - msg.length % 64) % 64) 0 ++
    leBytes8 ((8 * msg.length) % 18446744073709551616)

def chunks64Go : List Nat → List Nat → Nat → List (List Nat)
  | [], cur, _ => if cur.isEmpty then [] else [cur.reverse]
  | b :: rest, cur, count =>
    if count = 63 then (b :: cur).reverse :: chunks64Go rest [] 0
    else chunks64Go rest (b :: cur) (count + 1)

/-- The successive 64-byte chunks of the padded message. -/
def chunks64 (l : List Nat) : List (List Nat) := chunks64Go l [] 0

/-- The sixteen little-endian message words of one 64-byte chunk. -/
def chunkWords (chunk : List Nat) : List Nat :=
  (List.range 16).map fun j =>
    chunk.getD (4 * j) 0 + 256 * chunk.getD (4 * j + 1) 0 +
      65536 * chunk.getD (4 * j + 2) 0 + 16777216 * chunk.getD (4 * j + 3) 0

/-- One of the 64 md5 rounds. -/
def md5Round (m : List Nat) (st : Nat × Nat × Nat × Nat) (i : Nat) :
    Nat × Nat × Nat × Nat :=
  let (a, b, c, d) := st
  let f :=
    if i < 16 then (b &&& c) ||| (not32 b &&& d)
    else if i < 32 then (d &&& b) ||| (not32 d &&& c)
    else if i < 48 then b ^^^ c ^^^ d
    else c ^^^ (b ||| not32 d)
  let g :=
    if i < 16 then i
    else if i < 32 then (5 * i + 1) % 16
    else if i < 48 then (3 * i + 5) % 16
    else 7 * i % 16
  let f2 := w32 (f + a + md5K.getD i 0 + m.getD g 0)
  (d, w32 (b + rotl32 f2 (md5S.getD i 0)), b, c)

/-- Compression of one 64-byte chunk into the running state. -/
def md5Chunk (st : Nat × Nat × Nat × Nat) (chunk : List Nat) :
    Nat × Nat × Nat × Nat :=
  let m := chunkWords chunk
  let r := (List.range 64).foldl (md5Round m) st
  (w32 (st.1 + r.1), w32 (st.2.1 + r.2.1), w32 (st.2.2.1 + r.2.2.1),
    w32 (st.2.2.2 + r.2.2.2))

/-- The sixteen digest bytes of a message. -/
def md5Bytes (msg : List Nat) : List Nat :=
  let st := (chunks64 (md5Pad msg)).foldl md5Chunk
    (0x67452301, 0xefcdab89, 0x98badcfe, 0x10325476)
  leBytes4 st.1 ++ leBytes4 st.2.1 ++ leBytes4 st.2.2.1 ++ leBytes4 st.2.2.2

def hexChars : List Nat → List Char
  | [] => []
  | b :: bs => hexDigit (b / 16 % 16) :: hexDigit (b % 16) :: hexChars bs

/-- digest(hex): two lower-case hex digits per digest byte. -/
def md5Hex (msg : List Nat) : String := String.mk (hexChars (md5Bytes msg))

/-- The canonical textual encoding of an argument list:
JSON.stringify(args, safeJsonReplacer).  (On a cyclic argument object the
stringify call would throw out of generateHash; the acyclic fragment
modelled here always has a rendering.) -/
def canonicalEncoding (args : List JVal) : String :=
  renderJson ((jsonStringify (.arr args)).getD .null)

/-- generateHash (src lines 35-38): md5 over the canonical textual encoding
of the argument array, rendered as lower-case hex. -/
def generateHash (args : List JVal) : String :=
  md5Hex (utf8Bytes (canonicalEncoding args))

/-- A lower-case hexadecimal digit. -/
def isHexDigit (c : Char) : Bool :=
  (48 ≤ c.toNat && c.toNat ≤ 57) || (97 ≤ c.toNat && c.toNat ≤ 102)

/-- Contents of a file: a document at parse-tree level (anything JSON.parse
accepts), or raw text that fails to parse. -/
inductive FileContent where
  | raw (text : String) : FileContent
  | doc (j : Json) : FileContent

/-- The file system visible to one Beatbox instance.  `readFault`,
`writeFault` and `renameFault` inject non-ENOENT I/O failures; `reads`
counts read attempts (for the at-most-one-real-read claims); `clock` is the
value Date.now() returns while building a backup name. -/
structure FS where
  files : List (String × FileContent)
  readFault : Bool
  writeFault : Bool
  renameFault : Bool
  reads : Nat
  clock : Nat

/-- fs.readFile / readFileSync: a faulted read or a missing file throws. -/
def FS.readFile (fs : FS) (path : String) : Except FsErr FileContent × FS :=
  let fs2 := { fs with reads := fs.reads + 1 }
  if fs.readFault then (.error .eio, fs2)
  else
    match lookupKey fs.files path with
    | some c => (.ok c, fs2)
    | none => (.error .enoent, fs2)

/-- fs.writeFile. -/
def FS.writeFile (fs : FS) (path : String) (c : FileContent) :
    Except FsErr Unit × FS :=
  if fs.writeFault then (.error .eio, fs)
  else (.ok (), { fs with files := setEntry fs.files path c })

/-- fs.rename / renameSync: atomic, the destination takes the source
contents and the source entry disappears. -/
def FS.rename (fs : FS) (src dst : String) : Except FsErr Unit × FS :=
  if fs.renameFault then (.error .eio, fs)
  else
    match lookupKey fs.files src with
    | some c =>
      (.ok (), { fs with files := setEntry (removeEntry fs.files src) dst c })
    | none => (.error .enoent, fs)

/-- The Mode enum (src lines 5-9). -/
inductive Mode where
  | BYPASS : Mode
  | RECORD : Mode
  | PLAYBACK : Mode
deriving Repr, DecidableEq

/-- The private fields of a Beatbox instance (src lines 22-25). -/
structure BeatboxState where
  storage : List (String × JVal)
  storageFile : String
  mode : Mode
  initialized : Bool

/-- One instance together with its file system and the diagnostics sink
(console.warn and console.error messages, in order of emission). -/
structure St where
  bb : BeatboxState
  fs : FS
  warns : List String

/-- setMode (src lines 31-33). -/
def setMode (s : St) (m : Mode) : St :=
  { s with bb := { s.bb with mode := m } }

/-- The timestamped backup sibling path used on corruption recovery. -/
def backupName (file : String) (clock : Nat) : String :=
  file ++ ".backup." ++ toString clock

def corruptMessage (backup : String) : String :=
  "Storage file was corrupted. Backed up to " ++ backup ++ " and created new storage."

/-- this.storage = JSON.parse(data, safeJsonReviver): raw text raises a
SyntaxError; a reviver throw propagates with its own class.  A document
whose revived top level is not a plain object (possible only in a
hand-crafted file: the code would store that value and fail later at the
`hash in storage` lookup) is outside the modelled fragment and mapped to
the empty mapping. -/
def parseStorage (c : FileContent) : Except JsErr (List (String × JVal)) :=
  match c with
  | .raw _ => .error (.syntaxError "Unexpected token in JSON")
  | .doc j =>
    match jsonParse j with
    | .ok (.obj kvs) => .ok kvs
    | .ok _ => .ok []
    | .error e => .error e

/-- Corruption recovery inside loadStorage: rename to a backup, reset the
mapping, warn.  A rename failure inside the catch block propagates (the
mapping and the `initialized` flag stay untouched). -/
def loadRecover (s : St) (rn : Except FsErr Unit × FS) (backup : String) :
    Except JsErr Unit × St :=
  match rn.1 with
  | .ok _ =>
    (.ok (), { bb := { s.bb with storage := [], initialized := true },
               fs := rn.2, warns := s.warns ++ [corruptMessage backup] })
  | .error fe => (.error (.fsThrow fe), { s with fs := rn.2 })

/-- The body of loadStorage after the read attempt `rd`: parse into the
mapping; ENOENT means empty mapping; a SyntaxError triggers backup-rename
recovery; any other failure is rethrown. -/
def loadFrom (s : St) (rd : Except FsErr FileContent × FS) :
    Except JsErr Unit × St :=
  let s1 : St := { s with fs := rd.2 }
  match rd.1 with
  | .ok c =>
    match parseStorage c with
    | .ok kvs =>
      (.ok (), { s1 with bb := { s1.bb with storage := kvs, initialized := true } })
    | .error e =>
      if e.isSyntaxError then
        loadRecover s
          (rd.2.rename s.bb.storageFile (backupName s.bb.storageFile rd.2.clock))
          (backupName s.bb.storageFile rd.2.clock)
      else (.error e, s1)
  | .error .enoent =>
    (.ok (), { s1 with bb := { s1.bb with storage := [], initialized := true } })
  | .error .eio => (.error (.fsThrow .eio), s1)

/-- loadStorage (src lines 141-163): idempotent via the `initialized`
guard, then the read-and-parse body above. -/
def loadStorage (s : St) : Except JsErr Unit × St :=
  if s.bb.initialized then (.ok (), s)
  else loadFrom s (s.fs.readFile s.bb.storageFile)

/-- The rename step of a persist: on failure only a diagnostic. -/
def persistRename (s : St) (rn : Except FsErr Unit × FS) : St :=
  match rn.1 with
  | .error fe =>
    { s with fs := rn.2,
             warns := s.warns ++ ["Failed to save storage file: " ++ jsErrMessage (.fsThrow fe)] }
  | .ok _ => { s with fs := rn.2 }

/-- The write-then-rename step of a persist over the write attempt `w`:
on write failure only a diagnostic, otherwise rename the temp file over the
target. -/
def persistWrite (s : St) (tempFile : String) (w : Except FsErr Unit × FS) : St :=
  match w.1 with
  | .error fe =>
    { s with fs := w.2,
             warns := s.warns ++ ["Failed to save storage file: " ++ jsErrMessage (.fsThrow fe)] }
  | .ok _ => persistRename s (w.2.rename tempFile s.bb.storageFile)

/-- The document a persist writes: the stringified in-memory mapping. -/
def storageDoc (s : St) : Json :=
  (jsonStringify (.obj s.bb.storage)).getD .null

/-- saveStorage (src lines 165-179): encode the whole mapping; on encode
failure warn and leave the file system untouched; otherwise write a temp
sibling and atomically rename it over the target, reporting any I/O failure
as a diagnostic only.  The function never throws. -/
def saveStorage (s : St) : St :=
  let r := trySerialize (.obj s.bb.storage)
  if r.success then
    let tempFile := s.bb.storageFile ++ ".tmp"
    persistWrite s tempFile (s.fs.writeFile tempFile (.doc (storageDoc s)))
  else
    { s with warns := s.warns ++ ["Failed to save storage: " ++ r.error.getD "Unknown serialization error"] }

/-- The state after a successful Record store-and-persist step: the result
sits in the mapping under the fingerprint and saveStorage has run. -/
def recordedState (s : St) (hash : String) (r : JVal) : St :=
  saveStorage { s with bb := { s.bb with storage := setEntry s.bb.storage hash r } }

/-- Outcome of one call through the asynchronous wrapper: the settled value
or rejection, the resulting state, and how many times the wrapped function
was invoked. -/
structure CallResult where
  result : Except JsErr JVal
  state : St
  fnCalls : Nat

/-- The asynchronous wrapper (src lines 182-214): await loadStorage, compute
the fingerprint, then dispatch on the current mode.  The wrapped function is
modelled by its outcome `fnOut` for this argument list. -/
def asyncCall (s : St) (fnOut : Except JsErr JVal) (args : List JVal) : CallResult :=
  let ld := loadStorage s
  let s1 := ld.2
  match ld.1 with
  | .error e => ⟨.error e, s1, 0⟩
  | .ok _ =>
    let hash := generateHash args
    match s1.bb.mode with
    | .BYPASS => ⟨fnOut, s1, 1⟩
    | .RECORD =>
      match fnOut with
      | .error e => ⟨.error e, s1, 1⟩
      | .ok r =>
        if (trySerialize r).success then ⟨.ok r, recordedState s1 hash r, 1⟩
        else
          ⟨.ok r, { s1 with warns := s1.warns ++ ["Failed to record non-serializable result"] }, 1⟩
    | .PLAYBACK =>
      match lookupKey s1.bb.storage hash with
      | some v => ⟨.ok v, s1, 0⟩
      | none => ⟨.error (.error (notFoundMessage args)), s1, 0⟩

/-- The detached persistence task a synchronous Record call fires
(src lines 227-237): loadStorage().then(serialize-store-save).catch(log).
A load failure is only logged by the final catch. -/
def syncRecordTask (s : St) (hash : String) (r : JVal) : St :=
  let ld := loadStorage s
  let s1 := ld.2
  match ld.1 with
  | .ok _ =>
    if (trySerialize r).success then
      saveStorage { s1 with bb := { s1.bb with storage := setEntry s1.bb.storage hash r } }
    else { s1 with warns := s1.warns ++ ["Failed to record non-serializable result"] }
  | .error e => { s1 with warns := s1.warns ++ [jsErrMessage e] }

/-- Outcome of one call through the synchronous wrapper: `returned` is the
state at the moment the call returns to the caller, `settled` the state
after the detached Record persistence task (if any) has also completed. -/
structure SyncCallResult where
  result : Except JsErr JVal
  returned : St
  settled : St
  fnCalls : Nat

/-- Corruption recovery on the synchronous playback load (renameSync): a
rename failure inside the catch block propagates out of the wrapper. -/
def syncRecover (s : St) (rn : Except FsErr Unit × FS) (backup : String) :
    Except JsErr St :=
  match rn.1 with
  | .ok _ =>
    .ok { bb := { s.bb with storage := [], initialized := true },
          fs := rn.2, warns := s.warns ++ [corruptMessage backup] }
  | .error fe => .error (.fsThrow fe)

/-- The synchronous playback load (src lines 242-261) over the read attempt
`rd`: the catch block handles ENOENT and SyntaxError but has no rethrow
branch, so every other failure is silently swallowed and the previously
loaded mapping stays in place. -/
def syncPlayLoad (s : St) (rd : Except FsErr FileContent × FS) : Except JsErr St :=
  let s1 : St := { s with fs := rd.2 }
  match rd.1 with
  | .ok c =>
    match parseStorage c with
    | .ok kvs =>
      .ok { s1 with bb := { s1.bb with storage := kvs, initialized := true } }
    | .error e =>
      if e.isSyntaxError then
        syncRecover s
          (rd.2.rename s.bb.storageFile (backupName s.bb.storageFile rd.2.clock))
          (backupName s.bb.storageFile rd.2.clock)
      else .ok s1
  | .error .enoent =>
    .ok { s1 with bb := { s1.bb with storage := [], initialized := true } }
  | .error .eio => .ok s1

/-- The synchronous wrapper (src lines 217-274).  There is no loadStorage
call before dispatch.  Record returns the result immediately and persists
in a detached task.  Playback re-reads the file synchronously on every call
with a catch block that handles ENOENT and SyntaxError but silently
swallows every other failure (no else branch), continuing with whatever
mapping was previously in memory. -/
def syncCall (s : St) (fnOut : Except JsErr JVal) (args : List JVal) : SyncCallResult :=
  let hash := generateHash args
  match s.bb.mode with
  | .BYPASS => ⟨fnOut, s, s, 1⟩
  | .RECORD =>
    match fnOut with
    | .error e => ⟨.error e, s, s, 1⟩
    | .ok r => ⟨.ok r, s, syncRecordTask s hash r, 1⟩
  | .PLAYBACK =>
    let rd := s.fs.readFile s.bb.storageFile
    match syncPlayLoad s rd with
    | .error e => ⟨.error e, { s with fs := rd.2 }, { s with fs := rd.2 }, 0⟩
    | .ok s2 =>
      match lookupKey s2.bb.storage hash with
      | some v => ⟨.ok v, s2, s2, 0⟩
      | none => ⟨.error (.error (notFoundMessage args)), s2, s2, 0⟩

/-! The heap model: JavaScript objects and arrays as references into an
explicit heap, the only way a value can reach itself.  `serializeHeap`
models JSON.stringify(v, safeJsonReplacer) on this fragment, following the
specification algorithm: the replacer runs on each property value, then an
object value is checked against value stack of the objects currently being
serialized (the native circular-structure detection) and walked
recursively.  The fuel argument stands for the bounded JS call stack;
exhausting it is the stack-overflow RangeError. -/

/-- The circular-reference marker of safeJsonReplacer (src line 90). -/
def circularMarker : String := "[Circular Reference]"

inductive HVal where
  | hnull : HVal
  | hnum (n : Int) : HVal
  | hstr (s : String) : HVal
  | href (addr : Nat) : HVal
deriving Repr, DecidableEq

inductive HNode where
  | hobj (fields : List (String × HVal)) : HNode
  | harr (elems : List HVal) : HNode

structure Heap where
  nodes : List HNode

/-- safeJsonReplacer on the native fragment (src lines 86-94): the special
instanceof branches do not apply; the WeakSet is created inside the
function body, hence fresh and empty at every invocation, and the
membership test can never succeed — the marker branch is dead. -/
def heapReplacer (v : HVal) : HVal :=
  match v with
  | .href i =>
    let seen : List Nat := []
    if i ∈ seen then .hstr circularMarker else .href i
  | x => x

mutual

def serializeHeap (h : Heap) : Nat → List Nat → HVal → Except JsErr Json
  | 0, _, _ => .error (.rangeError "Maximum call stack size exceeded")
  | fuel + 1, stack, v =>
    match heapReplacer v with
    | .hnull => .ok .null
    | .hnum n => .ok (.num n)
    | .hstr s => .ok (.str s)
    | .href i =>
      if i ∈ stack then .error (.typeError "Converting circular structure to JSON")
      else
        match h.nodes[i]? with
        | none => .ok .null
        | some (.hobj kvs) =>
          match serializeHeapFields h fuel (i :: stack) kvs with
          | .ok fields => .ok (.obj fields)
          | .error e => .error e
        | some (.harr xs) =>
          match serializeHeapElems h fuel (i :: stack) xs with
          | .ok elems => .ok (.arr elems)
          | .error e => .error e

def serializeHeapFields (h : Heap) :
    Nat → List Nat → List (String × HVal) → Except JsErr (List (String × Json))
  | _, _, [] => .ok []
  | fuel, stack, (k, v) :: rest =>
    match serializeHeap h fuel stack v with
    | .ok j =>
      match serializeHeapFields h fuel stack rest with
      | .ok fs => .ok ((k, j) :: fs)
      | .error e => .error e
    | .error e => .error e

def serializeHeapElems (h : Heap) :
    Nat → List Nat → List HVal → Except JsErr (List Json)
  | _, _, [] => .ok []
  | fuel, stack, v :: rest =>
    match serializeHeap h fuel stack v with
    | .ok j =>
      match serializeHeapElems h fuel stack rest with
      | .ok js => .ok (j :: js)
      | .error e => .error e
    | .error e => .error e

end

/-- trySerialize on a heap value.  The fuel h.nodes.length + 1 suffices for
any walk starting from the empty ancestor stack (proved below), so the
bounded model agrees with the unbounded recursion of the source. -/
def trySerializeHeap (h : Heap) (v : HVal) : SerializationResult :=
  match serializeHeap h (h.nodes.length + 1) [] v with
  | .error e => ⟨false, none, some (jsErrMessage e)⟩
  | .ok j =>
    match jsonParse j with
    | .ok _ => ⟨true, some (renderJson j), none⟩
    | .error e => ⟨false, none, some (jsErrMessage e)⟩

/-- The canonical self-referencing value: obj.self = obj. -/
def cyclicHeap : Heap := ⟨[.hobj [("self", .href 0)]]⟩

/-! Marker occurrence in a document and marker cleanliness of a heap, for
the statement that the encoder never substitutes the marker. -/

mutual

def jsonHasMarker : Json → Bool
  | .null => false
  | .bool _ => false
  | .num _ => false
  | .str s => s == circularMarker
  | .arr xs => elemsHaveMarker xs
  | .obj kvs => fieldsHaveMarker kvs

def elemsHaveMarker : List Json → Bool
  | [] => false
  | x :: xs => jsonHasMarker x || elemsHaveMarker xs

def fieldsHaveMarker : List (String × Json) → Bool
  | [] => false
  | (k, v) :: rest => k == circularMarker || jsonHasMarker v || fieldsHaveMarker rest

end

def hvalClean : HVal → Bool
  | .hstr s => !(s == circularMarker)
  | _ => true

def hfieldsClean : List (String × HVal) → Bool
  | [] => true
  | (k, v) :: rest => !(k == circularMarker) && hvalClean v && hfieldsClean rest

def helemsClean : List HVal → Bool
  | [] => true
  | v :: rest => hvalClean v && helemsClean rest

def hnodeClean : HNode → Bool
  | .hobj kvs => hfieldsClean kvs
  | .harr xs => helemsClean xs

def heapClean (h : Heap) : Bool := h.nodes.all hnodeClean

/-! A literal substring test, for statements about error-message contents. -/

def headMatch : List Char → List Char → Bool
  | _, [] => true
  | [], _ :: _ => false
  | a :: rest, b :: bs => a == b && headMatch rest bs

def strContainsAux : List Char → List Char → Bool
  | [], needle => needle.isEmpty
  | c :: rest, needle => headMatch (c :: rest) needle || strContainsAux rest needle

/-- Whether `needle` occurs contiguously inside `hay`. -/
def strContains (hay needle : String) : Bool := strContainsAux hay.data needle.data

/-- A stack-overflow-class outcome of the heap serializer. -/
def stackOverflow {α : Type} : Except JsErr α → Bool
  | .error e => e.isRangeError
  | .ok _ => false

/-!
The fragment of values on which the round-trip law can hold exactly:
built from native scalars, arrays, objects, Set, Map, RegExp (with flags a
real RegExp instance can carry) and Error.  Excluded are: undefined
(dropped or nulled by stringify), Date (flattened to its ISO string by
toJSON before the replacer runs), live and restored functions and promises
(decoded as placeholders, not themselves), and objects carrying the
reserved "__type" key (decoded as envelopes).
-/
mutual

def goodV : JVal → Bool
  | .undef => false
  | .null => true
  | .bool _ => true
  | .num _ => true
  | .str _ => true
  | .arr xs => goodElems xs
  | .obj kvs => goodFields kvs
  | .set xs => goodElems xs
  | .map es => goodEntries es
  | .date _ => false
  | .regexp _ flags => validFlags flags
  | .error _ _ _ => true
  | .fn _ => false
  | .restoredFn _ => false
  | .promise => false
  | .rejectedPromise => false

def goodElems : List JVal → Bool
  | [] => true
  | x :: xs => goodV x && goodElems xs

def goodFields : List (String × JVal) → Bool
  | [] => true
  | (k, v) :: rest => !(k == "__type") && goodV v && goodFields rest

def goodEntries : List (JVal × JVal) → Bool
  | [] => true
  | (k, v) :: rest => goodV k && goodV v && goodEntries rest

end

/-- A plain file system with the given contents: no fault injection, no
reads so far, Date.now() frozen at 0. -/
def mkFs (files : List (String × FileContent)) : FS :=
  { files := files, readFault := false, writeFault := false,
    renameFault := false, reads := 0, clock := 0 }

/-- An instance over the default storage path in the given mode. -/
def mkSt (m : Mode) (init : Bool) (storage : List (String × JVal)) (fs : FS) : St :=
  { bb := { storage := storage, storageFile := "beatbox-storage.json",
            mode := m, initialized := init },
    fs := fs, warns := [] }

/-! Concrete states used by counterexamples and witnesses. -/

/-- An already-initialized instance in Playback mode whose in-memory mapping
disagrees with the on-disk file. -/
def demoSyncReread : St :=
  mkSt .PLAYBACK true [("x", .num 1)]
    (mkFs [("beatbox-storage.json", .doc (.obj [("y", .num 2)]))])

/-- An uninitialized Playback instance with a stale in-memory entry and a
file system whose reads fail with a non-ENOENT I/O error. -/
def demoStale : St :=
  mkSt .PLAYBACK false [(generateHash [.num 4, .num 5], .num 9)]
    { mkFs [] with readFault := true }

/-- An uninitialized Bypass instance over a well-formed storage file. -/
def demoBypassLoad : St :=
  mkSt .BYPASS false [] (mkFs [("beatbox-storage.json", .doc (.obj [("k", .num 7)]))])

/-- An uninitialized instance over a malformed storage file. -/
def demoCorrupt : St :=
  mkSt .BYPASS false [] (mkFs [("beatbox-storage.json", .raw "corrupted json")])

/-- An instance whose mapping cannot be encoded: a plain object faking a
RegExp envelope with invalid flags makes the decode-verification pass of
trySerialize throw. -/
def demoBadStorage : St :=
  mkSt .RECORD true
    [("k", .obj [("__type", .str "RegExp"), ("source", .str "a"), ("flags", .str "zz")])]
    (mkFs [])

/-- An uninitialized Record instance whose file writes fail. -/
def demoPersistFault : St :=
  mkSt .RECORD false [] { mkFs [] with writeFault := true }

/-- An initialized Record instance with empty mapping and file system. -/
def demoRecordReady : St := mkSt .RECORD true [] (mkFs [])

/-- An initialized Playback instance with an empty mapping. -/
def demoPlaybackEmpty : St := mkSt .PLAYBACK true [] (mkFs [])

/-- An initialized Playback instance holding one recorded entry. -/
def demoPlaybackHit : St :=
  mkSt .PLAYBACK true [(generateHash [.num 2, .num 3], .num 5)] (mkFs [])

/-! Helper lemmas. -/

theorem lookupKey_setEntry_self {α : Type} (l : List (String × α)) (k : String) (v : α) :
    lookupKey (setEntry l k v) k = some v := by
  induction l with
  | nil => simp [setEntry, lookupKey]
  | cons p rest ih =>
    obtain ⟨k1, v1⟩ := p
    by_cases hk : k1 = k
    · simp [setEntry, hk, lookupKey]
    · simp [setEntry, hk, lookupKey, ih]

theorem lookupKey_setEntry_ne {α : Type} (l : List (String × α)) (k k2 : String) (v : α)
    (h : k ≠ k2) : lookupKey (setEntry l k v) k2 = lookupKey l k2 := by
  induction l with
  | nil => simp [setEntry, lookupKey, h]
  | cons p rest ih =>
    obtain ⟨k1, v1⟩ := p
    by_cases hk : k1 = k
    · simp [setEntry, hk, lookupKey, h]
    · simp [setEntry, hk, lookupKey, ih]

theorem loadStorage_of_initialized (s : St) (h : s.bb.initialized = true) :
    loadStorage s = (.ok (), s) := by
  simp [loadStorage, h]

theorem FS.readFile_reads (fs : FS) (p : String) :
    (fs.readFile p).2.reads = fs.reads + 1 := by
  unfold FS.readFile
  split
  · rfl
  · cases h : lookupKey fs.files p <;> simp [h]

theorem FS.rename_reads (fs : FS) (a b : String) :
    (fs.rename a b).2.reads = fs.reads := by
  unfold FS.rename
  split
  · rfl
  · cases h : lookupKey fs.files a <;> simp [h]

theorem FS.writeFile_reads (fs : FS) (p : String) (c : FileContent) :
    (fs.writeFile p c).2.reads = fs.reads := by
  unfold FS.writeFile
  split <;> rfl

theorem loadRecover_mode (s : St) (rn : Except FsErr Unit × FS) (b : String) :
    (loadRecover s rn b).2.bb.mode = s.bb.mode := by
  obtain ⟨r, fs⟩ := rn
  cases r <;> rfl

theorem loadRecover_file (s : St) (rn : Except FsErr Unit × FS) (b : String) :
    (loadRecover s rn b).2.bb.storageFile = s.bb.storageFile := by
  obtain ⟨r, fs⟩ := rn
  cases r <;> rfl

theorem loadRecover_ok_init (s : St) (rn : Except FsErr Unit × FS) (b : String) :
    (loadRecover s rn b).1 = .ok () → (loadRecover s rn b).2.bb.initialized = true := by
  obtain ⟨r, fs⟩ := rn
  cases r with
  | ok u => intro; rfl
  | error fe => intro h; exact absurd h (by simp [loadRecover])

theorem loadRecover_reads (s : St) (rn : Except FsErr Unit × FS) (b : String) :
    (loadRecover s rn b).2.fs.reads = rn.2.reads := by
  obtain ⟨r, fs⟩ := rn
  cases r <;> rfl

theorem loadFrom_mode (s : St) (rd : Except FsErr FileContent × FS) :
    (loadFrom s rd).2.bb.mode = s.bb.mode := by
  obtain ⟨r, fs⟩ := rd
  cases r with
  | ok c =>
    cases hp : parseStorage c with
    | ok kvs => simp [loadFrom, hp]
    | error e =>
      by_cases hse : e.isSyntaxError
      · simp [loadFrom, hp, hse, loadRecover_mode]
      · simp [loadFrom, hp, hse]
  | error fe => cases fe <;> rfl

theorem loadFrom_file (s : St) (rd : Except FsErr FileContent × FS) :
    (loadFrom s rd).2.bb.storageFile = s.bb.storageFile := by
  obtain ⟨r, fs⟩ := rd
  cases r with
  | ok c =>
    cases hp : parseStorage c with
    | ok kvs => simp [loadFrom, hp]
    | error e =>
      by_cases hse : e.isSyntaxError
      · simp [loadFrom, hp, hse, loadRecover_file]
      · simp [loadFrom, hp, hse]
  | error fe => cases fe <;> rfl

theorem loadFrom_ok_init (s : St) (rd : Except FsErr FileContent × FS) :
    (loadFrom s rd).1 = .ok () → (loadFrom s rd).2.bb.initialized = true := by
  obtain ⟨r, fs⟩ := rd
  cases r with
  | ok c =>
    cases hp : parseStorage c with
    | ok kvs => intro; simp [loadFrom, hp]
    | error e =>
      by_cases hse : e.isSyntaxError
      · simp only [loadFrom, hp, hse, if_true]
        exact loadRecover_ok_init s _ _
      · simp [loadFrom, hp, hse]
  | error fe => cases fe with
    | enoent => intro; rfl
    | eio => intro h; exact absurd h (by simp [loadFrom])

theorem loadFrom_reads (s : St) (rd : Except FsErr FileContent × FS) :
    (loadFrom s rd).2.fs.reads = rd.2.reads := by
  obtain ⟨r, fs⟩ := rd
  cases r with
  | ok c =>
    cases hp : parseStorage c with
    | ok kvs => simp [loadFrom, hp]
    | error e =>
      by_cases hse : e.isSyntaxError
      · simp [loadFrom, hp, hse, loadRecover_reads, FS.rename_reads]
      · simp [loadFrom, hp, hse]
  | error fe => cases fe <;> rfl

theorem loadStorage_mode (s : St) : (loadStorage s).2.bb.mode = s.bb.mode := by
  unfold loadStorage
  split
  · rfl
  · exact loadFrom_mode s _

theorem loadStorage_file (s : St) :
    (loadStorage s).2.bb.storageFile = s.bb.storageFile := by
  unfold loadStorage
  split
  · rfl
  · exact loadFrom_file s _

theorem loadStorage_ok_init (s : St) :
    (loadStorage s).1 = .ok () → (loadStorage s).2.bb.initialized = true := by
  unfold loadStorage
  split
  · next hinit => intro _; exact hinit
  · exact loadFrom_ok_init s _

theorem loadStorage_reads_of_uninit (s : St) (h : s.bb.initialized = false) :
    (loadStorage s).2.fs.reads = s.fs.reads + 1 := by
  unfold loadStorage
  rw [h]
  simp only [Bool.false_eq_true, if_false]
  rw [loadFrom_reads, FS.readFile_reads]

theorem persistRename_bb (s : St) (rn : Except FsErr Unit × FS) :
    (persistRename s rn).bb = s.bb := by
  obtain ⟨r, fs⟩ := rn
  cases r <;> rfl

theorem persistRename_reads (s : St) (rn : Except FsErr Unit × FS) :
    (persistRename s rn).fs.reads = rn.2.reads := by
  obtain ⟨r, fs⟩ := rn
  cases r <;> rfl

theorem persistWrite_bb (s : St) (t : String) (w : Except FsErr Unit × FS) :
    (persistWrite s t w).bb = s.bb := by
  obtain ⟨r, fs⟩ := w
  cases r with
  | ok u => exact persistRename_bb s _
  | error fe => rfl

theorem persistWrite_reads (s : St) (t : String) (w : Except FsErr Unit × FS) :
    (persistWrite s t w).fs.reads = w.2.reads := by
  obtain ⟨r, fs⟩ := w
  cases r with
  | ok u => rw [persistWrite, persistRename_reads, FS.rename_reads]
  | error fe => rfl

theorem saveStorage_bb (s : St) : (saveStorage s).bb = s.bb := by
  simp only [saveStorage]
  split
  · exact persistWrite_bb s _ _
  · rfl

theorem saveStorage_reads (s : St) : (saveStorage s).fs.reads = s.fs.reads := by
  simp only [saveStorage]
  split
  · rw [persistWrite_reads, FS.writeFile_reads]
  · rfl

theorem md5Bytes_length (m : List Nat) : (md5Bytes m).length = 16 := by
  simp [md5Bytes, leBytes4]

theorem hexChars_length (bs : List Nat) : (hexChars bs).length = 2 * bs.length := by
  induction bs with
  | nil => simp [hexChars]
  | cons b rest ih => simp [hexChars, ih]; ring

theorem isHexDigit_hexDigit {n : Nat} (h : n < 16) : isHexDigit (hexDigit n) = true := by
  interval_cases n <;> decide

theorem hexChars_all_hex (bs : List Nat) : (hexChars bs).all isHexDigit = true := by
  induction bs with
  | nil => rfl
  | cons b rest ih =>
    simp only [hexChars, List.all_cons, ih, Bool.and_true]
    rw [isHexDigit_hexDigit (Nat.mod_lt _ (by norm_num)),
        isHexDigit_hexDigit (Nat.mod_lt _ (by norm_num))]
    rfl

theorem generateHash_length (a : List JVal) : (generateHash a).length = 32 := by
  show (hexChars (md5Bytes (utf8Bytes (canonicalEncoding a)))).length = 32
  rw [hexChars_length, md5Bytes_length]

/-! Heap serializer lemmas for the cycle-safety claim. -/

theorem nodup_bounded_length_le (l : List Nat) (n : Nat) (hnd : l.Nodup)
    (hb : ∀ a ∈ l, a < n) : l.length ≤ n := by
  classical
  have h1 : l.toFinset ⊆ Finset.range n := by
    intro a ha
    rw [List.mem_toFinset] at ha
    exact Finset.mem_range.mpr (hb a ha)
  have h2 := Finset.card_le_card h1
  rw [List.toFinset_card_of_nodup hnd, Finset.card_range] at h2
  exact h2

theorem heapFields_no_overflow (h : Heap) (fuel : Nat) (stack : List Nat)
    (hv : ∀ v : HVal, stackOverflow (serializeHeap h fuel stack v) = false) :
    ∀ kvs, stackOverflow (serializeHeapFields h fuel stack kvs) = false := by
  intro kvs
  induction kvs with
  | nil => simp [serializeHeapFields, stackOverflow]
  | cons p rest ih =>
    obtain ⟨k, v⟩ := p
    cases hres : serializeHeap h fuel stack v with
    | ok j =>
      cases hrest : serializeHeapFields h fuel stack rest with
      | ok fs2 => simp [serializeHeapFields, hres, hrest, stackOverflow]
      | error e =>
        rw [hrest] at ih
        have h3 : e.isRangeError = false := ih
        simp only [serializeHeapFields, hres, hrest]
        exact h3
    | error e =>
      have h2 := hv v
      rw [hres] at h2
      have h3 : e.isRangeError = false := h2
      simp only [serializeHeapFields, hres]
      exact h3

theorem heapElems_no_overflow (h : Heap) (fuel : Nat) (stack : List Nat)
    (hv : ∀ v : HVal, stackOverflow (serializeHeap h fuel stack v) = false) :
    ∀ xs, stackOverflow (serializeHeapElems h fuel stack xs) = false := by
  intro xs
  induction xs with
  | nil => simp [serializeHeapElems, stackOverflow]
  | cons v rest ih =>
    cases hres : serializeHeap h fuel stack v with
    | ok j =>
      cases hrest : serializeHeapElems h fuel stack rest with
      | ok js => simp [serializeHeapElems, hres, hrest, stackOverflow]
      | error e =>
        rw [hrest] at ih
        have h3 : e.isRangeError = false := ih
        simp only [serializeHeapElems, hres, hrest]
        exact h3
    | error e =>
      have h2 := hv v
      rw [hres] at h2
      have h3 : e.isRangeError = false := h2
      simp only [serializeHeapElems, hres]
      exact h3

theorem serializeHeap_no_overflow (h : Heap) :
    ∀ (fuel : Nat) (stack : List Nat) (v : HVal), stack.Nodup →
    (∀ a ∈ stack, a < h.nodes.length) →
    h.nodes.length + 1 ≤ fuel + stack.length →
    stackOverflow (serializeHeap h fuel stack v) = false := by
  intro fuel
  induction fuel with
  | zero =>
    intro stack v hnd hb hle
    exfalso
    have := nodup_bounded_length_le stack h.nodes.length hnd hb
    omega
  | succ fuel ih =>
    intro stack v hnd hb hle
    cases v with
    | hnull => simp [serializeHeap, heapReplacer, stackOverflow]
    | hnum n => simp [serializeHeap, heapReplacer, stackOverflow]
    | hstr s2 => simp [serializeHeap, heapReplacer, stackOverflow]
    | href i =>
      by_cases hmem : i ∈ stack
      · simp [serializeHeap, heapReplacer, hmem, stackOverflow, JsErr.isRangeError]
      · cases hget : h.nodes[i]? with
        | none => simp [serializeHeap, heapReplacer, hmem, hget, stackOverflow]
        | some node =>
          have hi : i < h.nodes.length := by
            rcases List.getElem?_eq_some.mp hget with ⟨hlt, _⟩
            exact hlt
          have hnd2 : (i :: stack).Nodup := List.nodup_cons.mpr ⟨hmem, hnd⟩
          have hb2 : ∀ a ∈ i :: stack, a < h.nodes.length := by
            intro a ha
            rcases List.mem_cons.mp ha with h1 | h2
            · exact h1 ▸ hi
            · exact hb a h2
          have hle2 : h.nodes.length + 1 ≤ fuel + (i :: stack).length := by
            simp only [List.length_cons]
            omega
          have hv : ∀ v2, stackOverflow (serializeHeap h fuel (i :: stack) v2) = false :=
            fun v2 => ih (i :: stack) v2 hnd2 hb2 hle2
          cases node with
          | hobj kvs =>
            have hfld := heapFields_no_overflow h fuel (i :: stack) hv kvs
            cases hres : serializeHeapFields h fuel (i :: stack) kvs with
            | ok fields =>
              simp [serializeHeap, heapReplacer, hmem, hget, hres, stackOverflow]
            | error e =>
              rw [hres] at hfld
              have h3 : e.isRangeError = false := hfld
              simp only [serializeHeap, heapReplacer, List.not_mem_nil, if_false,
                hmem, hget, hres]
              exact h3
          | harr xs =>
            have helm := heapElems_no_overflow h fuel (i :: stack) hv xs
            cases hres : serializeHeapElems h fuel (i :: stack) xs with
            | ok js =>
              simp [serializeHeap, heapReplacer, hmem, hget, hres, stackOverflow]
            | error e =>
              rw [hres] at helm
              have h3 : e.isRangeError = false := helm
              simp only [serializeHeap, heapReplacer, List.not_mem_nil, if_false,
                hmem, hget, hres]
              exact h3

theorem heapFields_no_marker (h : Heap) (fuel : Nat) (stack : List Nat)
    (hv : ∀ v : HVal, hvalClean v = true →
      ∀ j, serializeHeap h fuel stack v = .ok j → jsonHasMarker j = false) :
    ∀ kvs, hfieldsClean kvs = true →
    ∀ fs2, serializeHeapFields h fuel stack kvs = .ok fs2 → fieldsHaveMarker fs2 = false := by
  intro kvs
  induction kvs with
  | nil =>
    intro _ fs2 hok
    simp only [serializeHeapFields] at hok
    cases hok
    simp [fieldsHaveMarker]
  | cons p rest ih =>
    obtain ⟨k, v⟩ := p
    intro hclean fs2 hok
    simp only [hfieldsClean, Bool.and_eq_true] at hclean
    obtain ⟨⟨hk, hvc⟩, hrc⟩ := hclean
    cases hres : serializeHeap h fuel stack v with
    | ok j =>
      cases hrest : serializeHeapFields h fuel stack rest with
      | ok fs3 =>
        simp only [serializeHeapFields, hres, hrest] at hok
        cases hok
        simp only [fieldsHaveMarker, Bool.or_eq_false_iff]
        refine ⟨⟨?_, hv v hvc j hres⟩, ih hrc fs3 hrest⟩
        simpa using hk
      | error e => simp [serializeHeapFields, hres, hrest] at hok
    | error e => simp [serializeHeapFields, hres] at hok

theorem heapElems_no_marker (h : Heap) (fuel : Nat) (stack : List Nat)
    (hv : ∀ v : HVal, hvalClean v = true →
      ∀ j, serializeHeap h fuel stack v = .ok j → jsonHasMarker j = false) :
    ∀ xs, helemsClean xs = true →
    ∀ js, serializeHeapElems h fuel stack xs = .ok js → elemsHaveMarker js = false := by
  intro xs
  induction xs with
  | nil =>
    intro _ js hok
    simp only [serializeHeapElems] at hok
    cases hok
    simp [elemsHaveMarker]
  | cons v rest ih =>
    intro hclean js hok
    simp only [helemsClean, Bool.and_eq_true] at hclean
    obtain ⟨hvc, hrc⟩ := hclean
    cases hres : serializeHeap h fuel stack v with
    | ok j =>
      cases hrest : serializeHeapElems h fuel stack rest with
      | ok js3 =>
        simp only [serializeHeapElems, hres, hrest] at hok
        cases hok
        simp only [elemsHaveMarker, Bool.or_eq_false_iff]
        exact ⟨hv v hvc j hres, ih hrc js3 hrest⟩
      | error e => simp [serializeHeapElems, hres, hrest] at hok
    | error e => simp [serializeHeapElems, hres] at hok

theorem serializeHeap_no_marker (h : Heap) (hheap : heapClean h = true) :
    ∀ (fuel : Nat) (stack : List Nat) (v : HVal), hvalClean v = true →
    ∀ j, serializeHeap h fuel stack v = .ok j → jsonHasMarker j = false := by
  intro fuel
  induction fuel with
  | zero =>
    intro stack v _ j hok
    simp [serializeHeap] at hok
  | succ fuel ih =>
    intro stack v hvc j hok
    cases v with
    | hnull =>
      simp only [serializeHeap, heapReplacer] at hok
      cases hok
      rfl
    | hnum n =>
      simp only [serializeHeap, heapReplacer] at hok
      cases hok
      rfl
    | hstr s2 =>
      simp only [serializeHeap, heapReplacer] at hok
      cases hok
      simpa [jsonHasMarker, hvalClean] using hvc
    | href i =>
      by_cases hmem : i ∈ stack
      · simp [serializeHeap, heapReplacer, hmem] at hok
      · cases hget : h.nodes[i]? with
        | none =>
          simp only [serializeHeap, heapReplacer, List.not_mem_nil, if_false,
            hmem, hget] at hok
          cases hok
          rfl
        | some node =>
          have hmemnode : node ∈ h.nodes := List.getElem?_mem hget
          have hnodeclean : hnodeClean node = true :=
            List.all_eq_true.mp hheap node hmemnode
          have hv2 : ∀ v2 : HVal, hvalClean v2 = true →
              ∀ j2, serializeHeap h fuel (i :: stack) v2 = .ok j2 →
              jsonHasMarker j2 = false :=
            fun v2 => ih (i :: stack) v2
          cases node with
          | hobj kvs =>
            cases hres : serializeHeapFields h fuel (i :: stack) kvs with
            | ok fields =>
              simp only [serializeHeap, heapReplacer, List.not_mem_nil, if_false,
                hmem, hget, hres] at hok
              cases hok
              simp only [jsonHasMarker]
              exact heapFields_no_marker h fuel (i :: stack) hv2 kvs hnodeclean fields hres
            | error e =>
              simp [serializeHeap, heapReplacer, hmem, hget, hres] at hok
          | harr xs =>
            cases hres : serializeHeapElems h fuel (i :: stack) xs with
            | ok js =>
              simp only [serializeHeap, heapReplacer, List.not_mem_nil, if_false,
                hmem, hget, hres] at hok
              cases hok
              simp only [jsonHasMarker]
              exact heapElems_no_marker h fuel (i :: stack) hv2 xs hnodeclean js hres
            | error e =>
              simp [serializeHeap, heapReplacer, hmem, hget, hres] at hok

/-- Claim C1 (as amended): the literal marker is never substituted (the
identity set of the replacer is fresh and empty at every invocation, so its
branch is dead), the serializer raises the circular-structure TypeError at
any revisited node of the current path, and the recursion depth is bounded
by the heap size, so a cycle through plain objects and arrays can never
exhaust the stack. -/
theorem c1_cycle_safety_amended :
    (∀ (h : Heap) (fuel : Nat) (stack : List Nat) (v : HVal), stack.Nodup →
      (∀ a ∈ stack, a < h.nodes.length) →
      h.nodes.length + 1 ≤ fuel + stack.length →
      stackOverflow (serializeHeap h fuel stack v) = false) ∧
    (∀ (h : Heap) (fuel : Nat) (stack : List Nat) (v : HVal) (j : Json),
      heapClean h = true → hvalClean v = true →
      serializeHeap h fuel stack v = .ok j → jsonHasMarker j = false) ∧
    (∀ (h : Heap) (fuel : Nat) (stack : List Nat) (i : Nat), i ∈ stack →
      serializeHeap h (fuel + 1) stack (.href i) =
        .error (.typeError "Converting circular structure to JSON")) := by
  refine ⟨serializeHeap_no_overflow, ?_, ?_⟩
  · intro h fuel stack v j hheap hvc hok
    exact serializeHeap_no_marker h hheap fuel stack v hvc j hok
  · intro h fuel stack i hmem
    simp [serializeHeap, heapReplacer, hmem]

/-- Claim C1 counterexample: encoding the canonical self-referencing object
obj.self = obj does not produce the circular-reference marker — the encode
attempt fails with the serializer's own circular-structure TypeError and
yields no data at all. -/
theorem c1_cycle_marker_counterexample :
    trySerializeHeap cyclicHeap (.href 0) =
      ⟨false, none, some "Converting circular structure to JSON"⟩ := by
  simp [trySerializeHeap, serializeHeap, serializeHeapFields, heapReplacer,
    cyclicHeap, jsErrMessage]

/-- Witness for C1 (amended) at the concrete cyclic heap. -/
theorem c1_cycle_safety_witness :
    stackOverflow (serializeHeap cyclicHeap 2 [] (.href 0)) = false ∧
    serializeHeap cyclicHeap 1 [0] (.href 0) =
      .error (.typeError "Converting circular structure to JSON") :=
  ⟨c1_cycle_safety_amended.1 cyclicHeap 2 [] (.href 0) (by simp) (by simp)
      (by simp [cyclicHeap]),
   c1_cycle_safety_amended.2.2 cyclicHeap 0 [0] 0 (by simp)⟩

/-! Dispatch lemmas for the two wrappers. -/

theorem append_ne_self (f suf : String) (h : suf.length ≠ 0) : f ++ suf ≠ f := by
  intro heq
  have hlen := congrArg String.length heq
  rw [String.length_append] at hlen
  omega

theorem FS.readFile_fault (fs : FS) (p : String) (h : fs.readFault = true) :
    fs.readFile p = (.error .eio, { fs with reads := fs.reads + 1 }) := by
  simp [FS.readFile, h]

theorem FS.readFile_found (fs : FS) (p : String) (c : FileContent)
    (h1 : fs.readFault = false) (h2 : lookupKey fs.files p = some c) :
    fs.readFile p = (.ok c, { fs with reads := fs.reads + 1 }) := by
  simp [FS.readFile, h1, h2]

theorem FS.readFile_missing (fs : FS) (p : String)
    (h1 : fs.readFault = false) (h2 : lookupKey fs.files p = none) :
    fs.readFile p = (.error .enoent, { fs with reads := fs.reads + 1 }) := by
  simp [FS.readFile, h1, h2]

theorem FS.rename_ok (fs : FS) (a b : String) (c : FileContent)
    (h1 : fs.renameFault = false) (h2 : lookupKey fs.files a = some c) :
    fs.rename a b = (.ok (), { fs with files := setEntry (removeEntry fs.files a) b c }) := by
  simp [FS.rename, h1, h2]

theorem FS.writeFile_ok (fs : FS) (p : String) (c : FileContent)
    (h : fs.writeFault = false) :
    fs.writeFile p c = (.ok (), { fs with files := setEntry fs.files p c }) := by
  simp [FS.writeFile, h]

theorem FS.writeFile_fault (fs : FS) (p : String) (c : FileContent)
    (h : fs.writeFault = true) : fs.writeFile p c = (.error .eio, fs) := by
  simp [FS.writeFile, h]

theorem FS.rename_fault (fs : FS) (a b : String) (h : fs.renameFault = true) :
    fs.rename a b = (.error .eio, fs) := by
  simp [FS.rename, h]

theorem loadFrom_corrupt (s : St) (fs2 : FS) (text : String)
    (hrn : fs2.renameFault = false)
    (hlook : lookupKey fs2.files s.bb.storageFile = some (.raw text)) :
    loadFrom s (.ok (.raw text), fs2) =
      (.ok (), { bb := { s.bb with storage := [], initialized := true },
                 fs := { fs2 with
                         files := setEntry (removeEntry fs2.files s.bb.storageFile)
                           (backupName s.bb.storageFile fs2.clock) (.raw text) },
                 warns := s.warns ++ [corruptMessage (backupName s.bb.storageFile fs2.clock)] }) := by
  have hren := FS.rename_ok fs2 s.bb.storageFile
    (backupName s.bb.storageFile fs2.clock) (.raw text) hrn hlook
  simp only [loadFrom, parseStorage, JsErr.isSyntaxError, if_true, hren, loadRecover]

theorem syncPlayLoad_corrupt (s : St) (fs2 : FS) (text : String)
    (hrn : fs2.renameFault = false)
    (hlook : lookupKey fs2.files s.bb.storageFile = some (.raw text)) :
    syncPlayLoad s (.ok (.raw text), fs2) =
      .ok { bb := { s.bb with storage := [], initialized := true },
            fs := { fs2 with
                    files := setEntry (removeEntry fs2.files s.bb.storageFile)
                      (backupName s.bb.storageFile fs2.clock) (.raw text) },
            warns := s.warns ++ [corruptMessage (backupName s.bb.storageFile fs2.clock)] } := by
  have hren := FS.rename_ok fs2 s.bb.storageFile
    (backupName s.bb.storageFile fs2.clock) (.raw text) hrn hlook
  simp only [syncPlayLoad, parseStorage, JsErr.isSyntaxError, if_true, hren, syncRecover]

theorem asyncCall_load_error (s : St) (fnOut : Except JsErr JVal) (args : List JVal)
    (e : JsErr) (hl : (loadStorage s).1 = .error e) :
    asyncCall s fnOut args = ⟨.error e, (loadStorage s).2, 0⟩ := by
  simp only [asyncCall, hl]

theorem asyncCall_bypass (s : St) (fnOut : Except JsErr JVal) (args : List JVal)
    (hm : s.bb.mode = Mode.BYPASS) (hl : (loadStorage s).1 = .ok ()) :
    asyncCall s fnOut args = ⟨fnOut, (loadStorage s).2, 1⟩ := by
  have hmode : (loadStorage s).2.bb.mode = Mode.BYPASS := by rw [loadStorage_mode, hm]
  simp only [asyncCall, hl, hmode]

theorem asyncCall_record_ok (s : St) (args : List JVal) (r : JVal)
    (hm : s.bb.mode = Mode.RECORD) (hl : (loadStorage s).1 = .ok ())
    (hts : (trySerialize r).success = true) :
    asyncCall s (.ok r) args =
      ⟨.ok r, recordedState (loadStorage s).2 (generateHash args) r, 1⟩ := by
  have hmode : (loadStorage s).2.bb.mode = Mode.RECORD := by rw [loadStorage_mode, hm]
  simp only [asyncCall, hl, hmode, hts, if_true]

theorem asyncCall_record_encodefail (s : St) (args : List JVal) (r : JVal)
    (hm : s.bb.mode = Mode.RECORD) (hl : (loadStorage s).1 = .ok ())
    (hts : (trySerialize r).success = false) :
    asyncCall s (.ok r) args =
      ⟨.ok r, { (loadStorage s).2 with
                warns := (loadStorage s).2.warns ++ ["Failed to record non-serializable result"] }, 1⟩ := by
  have hmode : (loadStorage s).2.bb.mode = Mode.RECORD := by rw [loadStorage_mode, hm]
  simp only [asyncCall, hl, hmode, hts, Bool.false_eq_true, if_false]

theorem asyncCall_record_fnerr (s : St) (args : List JVal) (e : JsErr)
    (hm : s.bb.mode = Mode.RECORD) (hl : (loadStorage s).1 = .ok ()) :
    asyncCall s (.error e) args = ⟨.error e, (loadStorage s).2, 1⟩ := by
  have hmode : (loadStorage s).2.bb.mode = Mode.RECORD := by rw [loadStorage_mode, hm]
  simp only [asyncCall, hl, hmode]

theorem asyncCall_playback_hit (s : St) (fnOut : Except JsErr JVal) (args : List JVal)
    (v : JVal) (hm : s.bb.mode = Mode.PLAYBACK) (hl : (loadStorage s).1 = .ok ())
    (hfind : lookupKey (loadStorage s).2.bb.storage (generateHash args) = some v) :
    asyncCall s fnOut args = ⟨.ok v, (loadStorage s).2, 0⟩ := by
  have hmode : (loadStorage s).2.bb.mode = Mode.PLAYBACK := by rw [loadStorage_mode, hm]
  simp only [asyncCall, hl, hmode, hfind]

theorem asyncCall_playback_miss (s : St) (fnOut : Except JsErr JVal) (args : List JVal)
    (hm : s.bb.mode = Mode.PLAYBACK) (hl : (loadStorage s).1 = .ok ())
    (hfind : lookupKey (loadStorage s).2.bb.storage (generateHash args) = none) :
    asyncCall s fnOut args =
      ⟨.error (.error (notFoundMessage args)), (loadStorage s).2, 0⟩ := by
  have hmode : (loadStorage s).2.bb.mode = Mode.PLAYBACK := by rw [loadStorage_mode, hm]
  simp only [asyncCall, hl, hmode, hfind]

theorem syncCall_bypass (s : St) (fnOut : Except JsErr JVal) (args : List JVal)
    (hm : s.bb.mode = Mode.BYPASS) : syncCall s fnOut args = ⟨fnOut, s, s, 1⟩ := by
  simp only [syncCall, hm]

theorem syncCall_record_ok (s : St) (args : List JVal) (r : JVal)
    (hm : s.bb.mode = Mode.RECORD) :
    syncCall s (.ok r) args = ⟨.ok r, s, syncRecordTask s (generateHash args) r, 1⟩ := by
  simp only [syncCall, hm]

theorem syncCall_record_fnerr (s : St) (args : List JVal) (e : JsErr)
    (hm : s.bb.mode = Mode.RECORD) :
    syncCall s (.error e) args = ⟨.error e, s, s, 1⟩ := by
  simp only [syncCall, hm]

theorem syncRecordTask_ok (s : St) (hash : String) (r : JVal)
    (hl : (loadStorage s).1 = .ok ()) (hts : (trySerialize r).success = true) :
    syncRecordTask s hash r = recordedState (loadStorage s).2 hash r := by
  simp only [syncRecordTask, hl, hts, if_true, recordedState]

theorem syncRecordTask_encodefail (s : St) (hash : String) (r : JVal)
    (hl : (loadStorage s).1 = .ok ()) (hts : (trySerialize r).success = false) :
    syncRecordTask s hash r =
      { (loadStorage s).2 with
        warns := (loadStorage s).2.warns ++ ["Failed to record non-serializable result"] } := by
  simp only [syncRecordTask, hl, hts, Bool.false_eq_true, if_false]

theorem syncCall_playback (s : St) (fnOut : Except JsErr JVal) (args : List JVal)
    (hm : s.bb.mode = Mode.PLAYBACK) :
    syncCall s fnOut args =
      match syncPlayLoad s (s.fs.readFile s.bb.storageFile) with
      | .error e =>
        ⟨.error e, { s with fs := (s.fs.readFile s.bb.storageFile).2 },
          { s with fs := (s.fs.readFile s.bb.storageFile).2 }, 0⟩
      | .ok s2 =>
        match lookupKey s2.bb.storage (generateHash args) with
        | some v => ⟨.ok v, s2, s2, 0⟩
        | none => ⟨.error (.error (notFoundMessage args)), s2, s2, 0⟩ := by
  simp only [syncCall, hm]

theorem syncRecover_ok_reads (s : St) (rn : Except FsErr Unit × FS) (b : String) :
    ∀ s2, syncRecover s rn b = .ok s2 → s2.fs.reads = rn.2.reads := by
  obtain ⟨r, fs⟩ := rn
  cases r with
  | ok u =>
    intro s2 h
    cases h
    rfl
  | error fe => intro s2 h; exact absurd h (by simp [syncRecover])

theorem syncPlayLoad_reads (s : St) (rd : Except FsErr FileContent × FS) :
    ∀ s2, syncPlayLoad s rd = .ok s2 → s2.fs.reads = rd.2.reads := by
  obtain ⟨r, fs⟩ := rd
  cases r with
  | ok c =>
    cases hp : parseStorage c with
    | ok kvs =>
      intro s2 h
      simp only [syncPlayLoad, hp] at h
      cases h
      rfl
    | error e =>
      by_cases hse : e.isSyntaxError
      · intro s2 h
        simp only [syncPlayLoad, hp, hse, if_true] at h
        have := syncRecover_ok_reads s _ _ s2 h
        rw [this, FS.rename_reads]
      · intro s2 h
        simp only [syncPlayLoad, hp, hse, Bool.false_eq_true, if_false] at h
        cases h
        rfl
  | error fe =>
    cases fe with
    | enoent =>
      intro s2 h
      simp only [syncPlayLoad] at h
      cases h
      rfl
    | eio =>
      intro s2 h
      simp only [syncPlayLoad] at h
      cases h
      rfl

theorem syncPlayLoad_fault (s : St) (rd : Except FsErr FileContent × FS)
    (h : rd.1 = .error .eio) : syncPlayLoad s rd = .ok { s with fs := rd.2 } := by
  simp only [syncPlayLoad, h]

theorem recordedState_bb (s : St) (hash : String) (r : JVal) :
    (recordedState s hash r).bb =
      { s.bb with storage := setEntry s.bb.storage hash r } := by
  rw [recordedState, saveStorage_bb]

theorem recordedState_reads (s : St) (hash : String) (r : JVal) :
    (recordedState s hash r).fs.reads = s.fs.reads := by
  rw [recordedState, saveStorage_reads]

/-! Claim theorems. -/

/-! Round-trip lemmas for the codec. -/

theorem mapEntriesOf_pairs (es : List (JVal × JVal)) :
    mapEntriesOf (es.map fun p => JVal.arr [p.1, p.2]) = .ok es := by
  induction es with
  | nil => rfl
  | cons p rest ih =>
    obtain ⟨a, b⟩ := p
    simp only [List.map_cons, mapEntriesOf, mapEntryOf, ih]

mutual

theorem roundtripV (v : JVal) (h : goodV v = true) :
    ∃ j, jsonStringify v = some j ∧ jsonParse j = .ok v := by
  cases v with
  | undef => simp [goodV] at h
  | null => exact ⟨.null, rfl, rfl⟩
  | bool b => exact ⟨.bool b, rfl, rfl⟩
  | num n => exact ⟨.num n, rfl, rfl⟩
  | str s => exact ⟨.str s, rfl, rfl⟩
  | arr xs =>
    simp only [goodV] at h
    refine ⟨.arr (stringifyElems xs), rfl, ?_⟩
    simp only [jsonParse, roundtripElems xs h]
  | obj kvs =>
    simp only [goodV] at h
    obtain ⟨hp, hnt⟩ := roundtripFields kvs h
    refine ⟨.obj (stringifyFields kvs), rfl, ?_⟩
    simp only [jsonParse, hp, applyReviver, hnt]
  | set xs =>
    simp only [goodV] at h
    refine ⟨_, rfl, ?_⟩
    simp only [jsonParse, parseFields, parseElems, roundtripElems xs h, applyReviver, lookupKey]
    simp [lookupKey]
  | map es =>
    simp only [goodV] at h
    refine ⟨_, rfl, ?_⟩
    simp only [jsonParse, parseFields, parseElems, roundtripEntries es h, applyReviver, lookupKey]
    simp [lookupKey, mapEntriesOf_pairs]
  | date iso => simp [goodV] at h
  | regexp src flags =>
    simp only [goodV] at h
    refine ⟨_, rfl, ?_⟩
    simp [jsonParse, parseFields, applyReviver, lookupKey, h]
  | error nm msg stk =>
    refine ⟨_, rfl, ?_⟩
    simp [jsonParse, parseFields, applyReviver, lookupKey, strField]
  | fn nm => simp [goodV] at h
  | restoredFn nm => simp [goodV] at h
  | promise => simp [goodV] at h
  | rejectedPromise => simp [goodV] at h

theorem roundtripElems (xs : List JVal) (h : goodElems xs = true) :
    parseElems (stringifyElems xs) = .ok xs := by
  cases xs with
  | nil => rfl
  | cons x rest =>
    simp only [goodElems, Bool.and_eq_true] at h
    obtain ⟨hx, hrest⟩ := h
    obtain ⟨j, hs, hp⟩ := roundtripV x hx
    simp only [stringifyElems, hs, Option.getD_some, parseElems, hp,
      roundtripElems rest hrest]

theorem roundtripFields (kvs : List (String × JVal)) (h : goodFields kvs = true) :
    parseFields (stringifyFields kvs) = .ok kvs ∧ lookupKey kvs "__type" = none := by
  cases kvs with
  | nil => exact ⟨rfl, rfl⟩
  | cons p rest =>
    obtain ⟨k, v⟩ := p
    simp only [goodFields, Bool.and_eq_true] at h
    obtain ⟨⟨hk, hv⟩, hrest⟩ := h
    obtain ⟨j, hs, hp⟩ := roundtripV v hv
    obtain ⟨hpf, hnt⟩ := roundtripFields rest hrest
    constructor
    · simp only [stringifyFields, hs, parseFields, hp, hpf]
    · simp only [lookupKey, hnt]
      rw [if_neg]
      intro heq
      rw [heq] at hk
      simp at hk

theorem roundtripEntries (es : List (JVal × JVal)) (h : goodEntries es = true) :
    parseElems (stringifyEntries es) = .ok (es.map fun p => JVal.arr [p.1, p.2]) := by
  cases es with
  | nil => rfl
  | cons p rest =>
    obtain ⟨a, b⟩ := p
    simp only [goodEntries, Bool.and_eq_true] at h
    obtain ⟨⟨ha, hb⟩, hrest⟩ := h
    obtain ⟨ja, hsa, hpa⟩ := roundtripV a ha
    obtain ⟨jb, hsb, hpb⟩ := roundtripV b hb
    simp only [stringifyEntries, hsa, hsb, Option.getD_some, parseElems, jsonParse,
      hpa, hpb, roundtripEntries rest hrest, List.map_cons]

end

/-- Claim C4 (as amended): decode-after-encode succeeds for every value
encode accepts, and encode verifies that synchronously, failing fast when
the verification parse throws; the decoded value equals the original for
native scalars, arrays, objects without the reserved __type key, and for
Set/Map/RegExp/Error envelopes — but not for Date values, which toJSON
flattens to their ISO string before the replacer can tag them, so they
decode as plain strings (see the counterexample). -/
theorem c4_roundtrip_amended :
    (∀ v : JVal, (trySerialize v).success = true →
      ∃ j, jsonStringify v = some j ∧ (jsonParse j).isOk = true) ∧
    (∀ v : JVal, goodV v = true →
      (trySerialize v).success = true ∧ encodeDecode v = .ok v) := by
  constructor
  · intro v hs
    cases hst : jsonStringify v with
    | none => simp [trySerialize, hst] at hs
    | some j =>
      cases hpp : jsonParse j with
      | ok w => exact ⟨j, rfl, by rw [hpp]; rfl⟩
      | error e => simp [trySerialize, hst, hpp] at hs
  · intro v hg
    obtain ⟨j, hs, hp⟩ := roundtripV v hg
    constructor
    · simp [trySerialize, hs, hp]
    · simp [encodeDecode, hs, hp]

/-- Claim C4 counterexample: a Date is accepted by encode, yet its
round trip is a plain string, not a semantically equivalent Date — toJSON
runs before the replacer inside JSON.stringify, so the Date envelope branch
of safeJsonReplacer never fires. -/
theorem c4_roundtrip_counterexample :
    (trySerialize (JVal.date "2024-01-01T00:00:00.000Z")).success = true ∧
    encodeDecode (JVal.date "2024-01-01T00:00:00.000Z") =
      .ok (JVal.str "2024-01-01T00:00:00.000Z") ∧
    JVal.str "2024-01-01T00:00:00.000Z" ≠ JVal.date "2024-01-01T00:00:00.000Z" :=
  ⟨rfl, rfl, fun hcontra => JVal.noConfusion hcontra⟩

/-- Witness for C4 (amended) at a concrete Set value. -/
theorem c4_roundtrip_witness :
    ((trySerialize (JVal.set [JVal.num 1])).success = true ∧
      encodeDecode (JVal.set [JVal.num 1]) = .ok (JVal.set [JVal.num 1])) ∧
    (∃ j, jsonStringify (JVal.set [JVal.num 1]) = some j ∧ (jsonParse j).isOk = true) :=
  ⟨c4_roundtrip_amended.2 (JVal.set [JVal.num 1]) rfl,
   c4_roundtrip_amended.1 (JVal.set [JVal.num 1]) rfl⟩

/-- Claim C9: the fingerprint is a pure deterministic function of the
canonical encoding of the argument list — equal encodings give equal
fingerprints — and its output is always a fixed-width (32 character,
128 bit) lower-case hex string. -/
theorem c9_fingerprint_pure :
    (∀ a1 a2 : List JVal, canonicalEncoding a1 = canonicalEncoding a2 →
      generateHash a1 = generateHash a2) ∧
    (∀ a : List JVal, (generateHash a).length = 32 ∧
      (generateHash a).data.all isHexDigit = true) := by
  constructor
  · intro a1 a2 h
    simp [generateHash, h]
  · intro a
    refine ⟨generateHash_length a, ?_⟩
    show (hexChars (md5Bytes (utf8Bytes (canonicalEncoding a)))).all isHexDigit = true
    exact hexChars_all_hex _

/-- Witness for C9 at a concrete argument list. -/
theorem c9_fingerprint_pure_witness :
    generateHash [JVal.num 2, JVal.num 3] = generateHash [JVal.num 2, JVal.num 3] ∧
    (generateHash [JVal.num 2, JVal.num 3]).length = 32 :=
  ⟨c9_fingerprint_pure.1 _ _ rfl, (c9_fingerprint_pure.2 _).1⟩

/-- Claim C2: a call dispatched in Record mode (after a successful lazy
load) invokes the wrapped function exactly once; a successfully encoded
result is stored under the fingerprint and persisted; an encode failure
stores nothing, emits the diagnostic, and the caller still receives the
real result; a wrapped-function failure propagates and nothing is stored.
The synchronous wrapper returns the result immediately and its detached
task performs the same store-and-persist (or diagnostic) step. -/
theorem c2_record_dispatch (s : St) (fnOut : Except JsErr JVal) (args : List JVal)
    (hm : s.bb.mode = Mode.RECORD) (hl : (loadStorage s).1 = .ok ()) :
    (asyncCall s fnOut args).fnCalls = 1 ∧
    (∀ r : JVal, fnOut = .ok r → (trySerialize r).success = true →
      asyncCall s fnOut args =
        ⟨.ok r, recordedState (loadStorage s).2 (generateHash args) r, 1⟩) ∧
    (∀ r : JVal, fnOut = .ok r → (trySerialize r).success = false →
      asyncCall s fnOut args =
        ⟨.ok r, { (loadStorage s).2 with
          warns := (loadStorage s).2.warns ++ ["Failed to record non-serializable result"] }, 1⟩) ∧
    (∀ e : JsErr, fnOut = .error e →
      asyncCall s fnOut args = ⟨.error e, (loadStorage s).2, 1⟩) ∧
    (∀ r : JVal, fnOut = .ok r →
      syncCall s fnOut args = ⟨.ok r, s, syncRecordTask s (generateHash args) r, 1⟩ ∧
      ((trySerialize r).success = true →
        syncRecordTask s (generateHash args) r =
          recordedState (loadStorage s).2 (generateHash args) r) ∧
      ((trySerialize r).success = false →
        syncRecordTask s (generateHash args) r =
          { (loadStorage s).2 with
            warns := (loadStorage s).2.warns ++ ["Failed to record non-serializable result"] })) ∧
    (∀ e : JsErr, fnOut = .error e → syncCall s fnOut args = ⟨.error e, s, s, 1⟩) := by
  refine ⟨?_, ?_, ?_, ?_, ?_, ?_⟩
  · cases fnOut with
    | ok r =>
      cases hts : (trySerialize r).success with
      | true => rw [asyncCall_record_ok s args r hm hl hts]
      | false => rw [asyncCall_record_encodefail s args r hm hl hts]
    | error e => rw [asyncCall_record_fnerr s args e hm hl]
  · intro r hr hts
    subst hr
    exact asyncCall_record_ok s args r hm hl hts
  · intro r hr hts
    subst hr
    exact asyncCall_record_encodefail s args r hm hl hts
  · intro e he
    subst he
    exact asyncCall_record_fnerr s args e hm hl
  · intro r hr
    subst hr
    exact ⟨syncCall_record_ok s args r hm,
           fun hts => syncRecordTask_ok s _ r hl hts,
           fun hts => syncRecordTask_encodefail s _ r hl hts⟩
  · intro e he
    subst he
    exact syncCall_record_fnerr s args e hm

/-- Witness for C2 at a concrete Record call. -/
theorem c2_record_dispatch_witness :
    asyncCall demoRecordReady (.ok (.num 5)) [.num 2, .num 3] =
      ⟨.ok (.num 5),
        recordedState (loadStorage demoRecordReady).2 (generateHash [.num 2, .num 3]) (.num 5),
        1⟩ ∧
    (asyncCall demoRecordReady (.error (.error "boom")) [.num 2, .num 3]).fnCalls = 1 :=
  ⟨(c2_record_dispatch demoRecordReady (.ok (.num 5)) [.num 2, .num 3] rfl rfl).2.1
      (.num 5) rfl rfl,
   (c2_record_dispatch demoRecordReady (.error (.error "boom")) [.num 2, .num 3] rfl rfl).1⟩

/-- Claim C3 (as amended): Playback never invokes the wrapped function; a
stored fingerprint returns the stored value; a miss fails with the
not-found error whose message embeds the argument list rendered as
pretty-printed JSON with two-space indentation — a multi-line rendering, so
for arguments 4,5 the message contains 4 and 5 in a bracketed list but not
the compact text [4,5]. -/
theorem c3_playback_amended (s : St) (fnOut : Except JsErr JVal) (args : List JVal)
    (hm : s.bb.mode = Mode.PLAYBACK) :
    ((loadStorage s).1 = .ok () → (asyncCall s fnOut args).fnCalls = 0) ∧
    (∀ v : JVal, (loadStorage s).1 = .ok () →
      lookupKey (loadStorage s).2.bb.storage (generateHash args) = some v →
      asyncCall s fnOut args = ⟨.ok v, (loadStorage s).2, 0⟩) ∧
    ((loadStorage s).1 = .ok () →
      lookupKey (loadStorage s).2.bb.storage (generateHash args) = none →
      asyncCall s fnOut args =
        ⟨.error (.error (notFoundMessage args)), (loadStorage s).2, 0⟩) ∧
    (syncCall s fnOut args).fnCalls = 0 ∧
    (∀ (s2 : St) (v : JVal),
      syncPlayLoad s (s.fs.readFile s.bb.storageFile) = .ok s2 →
      lookupKey s2.bb.storage (generateHash args) = some v →
      syncCall s fnOut args = ⟨.ok v, s2, s2, 0⟩) ∧
    (∀ s2 : St, syncPlayLoad s (s.fs.readFile s.bb.storageFile) = .ok s2 →
      lookupKey s2.bb.storage (generateHash args) = none →
      syncCall s fnOut args = ⟨.error (.error (notFoundMessage args)), s2, s2, 0⟩) ∧
    notFoundMessage [JVal.num 4, JVal.num 5] =
      "No recorded result found for arguments: [\n  4,\n  5\n]" ∧
    strContains (notFoundMessage [JVal.num 4, JVal.num 5]) "4" = true ∧
    strContains (notFoundMessage [JVal.num 4, JVal.num 5]) "5" = true := by
  refine ⟨?_, ?_, ?_, ?_, ?_, ?_, rfl, rfl, rfl⟩
  · intro hl
    cases hfind : lookupKey (loadStorage s).2.bb.storage (generateHash args) with
    | some v => rw [asyncCall_playback_hit s fnOut args v hm hl hfind]
    | none => rw [asyncCall_playback_miss s fnOut args hm hl hfind]
  · intro v hl hfind
    exact asyncCall_playback_hit s fnOut args v hm hl hfind
  · intro hl hfind
    exact asyncCall_playback_miss s fnOut args hm hl hfind
  · rw [syncCall_playback s fnOut args hm]
    cases hpl : syncPlayLoad s (s.fs.readFile s.bb.storageFile) with
    | error e => rfl
    | ok s2 =>
      cases hfind : lookupKey s2.bb.storage (generateHash args) <;>
        simp only [hfind]
  · intro s2 v hpl hfind
    rw [syncCall_playback s fnOut args hm]
    simp only [hpl, hfind]
  · intro s2 hpl hfind
    rw [syncCall_playback s fnOut args hm]
    simp only [hpl, hfind]

/-- Claim C3 counterexample: for a playback miss on arguments 4,5 the error
message does not contain the literal text [4,5] — the arguments are
embedded pretty-printed across several lines. -/
theorem c3_playback_message_counterexample :
    (asyncCall demoPlaybackEmpty (.ok (.num 9)) [.num 4, .num 5]).result =
      .error (.error (notFoundMessage [.num 4, .num 5])) ∧
    (asyncCall demoPlaybackEmpty (.ok (.num 9)) [.num 4, .num 5]).fnCalls = 0 ∧
    strContains (notFoundMessage [JVal.num 4, JVal.num 5]) "[4,5]" = false :=
  ⟨rfl, rfl, rfl⟩

/-- Witness for C3 (amended) at a concrete playback hit. -/
theorem c3_playback_amended_witness :
    asyncCall demoPlaybackHit (.error (.error "must not run")) [.num 2, .num 3] =
      ⟨.ok (.num 5), (loadStorage demoPlaybackHit).2, 0⟩ :=
  (c3_playback_amended demoPlaybackHit (.error (.error "must not run"))
    [.num 2, .num 3] rfl).2.1 (.num 5) rfl rfl

/-- Claim C7 (as amended): Bypass passes the wrapped outcome through
unmodified; the synchronous path touches no state at all; the asynchronous
path first performs the lazy load — reading the storage file and
(re)setting the in-memory mapping on a not-yet-initialized instance, and
failing the call without invoking the function when that load throws —
and only then dispatches, after which it adds no further storage
interaction. -/
theorem c7_bypass_amended (s : St) (fnOut : Except JsErr JVal) (args : List JVal)
    (hm : s.bb.mode = Mode.BYPASS) :
    syncCall s fnOut args = ⟨fnOut, s, s, 1⟩ ∧
    ((loadStorage s).1 = .ok () →
      asyncCall s fnOut args = ⟨fnOut, (loadStorage s).2, 1⟩) ∧
    (s.bb.initialized = true → asyncCall s fnOut args = ⟨fnOut, s, 1⟩) ∧
    (∀ e : JsErr, (loadStorage s).1 = .error e →
      asyncCall s fnOut args = ⟨.error e, (loadStorage s).2, 0⟩) := by
  refine ⟨syncCall_bypass s fnOut args hm, ?_, ?_, ?_⟩
  · intro hl
    exact asyncCall_bypass s fnOut args hm hl
  · intro hi
    have hl : (loadStorage s).1 = .ok () := by rw [loadStorage_of_initialized s hi]
    have h2 := asyncCall_bypass s fnOut args hm hl
    rw [loadStorage_of_initialized s hi] at h2
    exact h2
  · intro e hl
    exact asyncCall_load_error s fnOut args e hl

/-- Claim C7 counterexample: an asynchronous Bypass call on a
not-yet-initialized instance reads the storage file and replaces the
in-memory mapping — storage interaction the claim rules out. -/
theorem c7_bypass_counterexample :
    (asyncCall demoBypassLoad (.ok (.num 5)) [.num 2, .num 3]).result = .ok (.num 5) ∧
    demoBypassLoad.bb.storage = [] ∧
    (asyncCall demoBypassLoad (.ok (.num 5)) [.num 2, .num 3]).state.bb.storage =
      [("k", JVal.num 7)] ∧
    demoBypassLoad.fs.reads = 0 ∧
    (asyncCall demoBypassLoad (.ok (.num 5)) [.num 2, .num 3]).state.fs.reads = 1 :=
  ⟨rfl, rfl, rfl, rfl, rfl⟩

/-- Witness for C7 (amended) at a concrete initialized Bypass instance. -/
theorem c7_bypass_amended_witness :
    syncCall (mkSt .BYPASS true [] (mkFs [])) (.ok (.num 5)) [.num 2, .num 3] =
      ⟨.ok (.num 5), mkSt .BYPASS true [] (mkFs []), mkSt .BYPASS true [] (mkFs []), 1⟩ ∧
    asyncCall (mkSt .BYPASS true [] (mkFs [])) (.ok (.num 5)) [.num 2, .num 3] =
      ⟨.ok (.num 5), mkSt .BYPASS true [] (mkFs []), 1⟩ :=
  ⟨(c7_bypass_amended (mkSt .BYPASS true [] (mkFs [])) (.ok (.num 5)) [.num 2, .num 3] rfl).1,
   (c7_bypass_amended (mkSt .BYPASS true [] (mkFs [])) (.ok (.num 5)) [.num 2, .num 3] rfl).2.2.1 rfl⟩

/-- Claim C8 (as amended): the asynchronous load path is lazy and
idempotent — at most one real read per instance, and once initialized an
asynchronous call performs no read at all; the synchronous Playback path,
however, re-reads the file on every single call and replaces the in-memory
mapping with the file contents, so the mapping is mutated by loads as well
as by successful Record calls (synchronous Bypass remains pure, and an
initialized asynchronous Playback call leaves the mapping untouched). -/
theorem c8_lazy_load_amended :
    (∀ s : St, s.bb.initialized = true → loadStorage s = (.ok (), s)) ∧
    (∀ (s : St) (fnOut : Except JsErr JVal) (args : List JVal),
      s.bb.initialized = true →
      (asyncCall s fnOut args).state.fs.reads = s.fs.reads) ∧
    (∀ s : St, s.bb.initialized = false →
      (loadStorage s).2.fs.reads = s.fs.reads + 1) ∧
    (∀ (s : St) (fnOut : Except JsErr JVal) (args : List JVal),
      s.bb.mode = Mode.PLAYBACK →
      (syncCall s fnOut args).returned.fs.reads = s.fs.reads + 1) ∧
    (∀ (s : St) (fnOut : Except JsErr JVal) (args : List JVal),
      s.bb.mode = Mode.BYPASS → syncCall s fnOut args = ⟨fnOut, s, s, 1⟩) ∧
    (∀ (s : St) (fnOut : Except JsErr JVal) (args : List JVal),
      s.bb.initialized = true → s.bb.mode = Mode.PLAYBACK →
      (asyncCall s fnOut args).state.bb.storage = s.bb.storage) := by
  refine ⟨loadStorage_of_initialized, ?_, loadStorage_reads_of_uninit, ?_, ?_, ?_⟩
  · intro s fnOut args hi
    have hl : (loadStorage s).1 = .ok () := by rw [loadStorage_of_initialized s hi]
    cases hmode : s.bb.mode with
    | BYPASS =>
      rw [asyncCall_bypass s fnOut args hmode hl, loadStorage_of_initialized s hi]
    | RECORD =>
      cases fnOut with
      | ok r =>
        cases hts : (trySerialize r).success with
        | true =>
          rw [asyncCall_record_ok s args r hmode hl hts]
          show (recordedState (loadStorage s).2 _ r).fs.reads = s.fs.reads
          rw [recordedState_reads, loadStorage_of_initialized s hi]
        | false =>
          rw [asyncCall_record_encodefail s args r hmode hl hts,
              loadStorage_of_initialized s hi]
      | error e =>
        rw [asyncCall_record_fnerr s args e hmode hl, loadStorage_of_initialized s hi]
    | PLAYBACK =>
      cases hfind : lookupKey (loadStorage s).2.bb.storage (generateHash args) with
      | some v =>
        rw [asyncCall_playback_hit s fnOut args v hmode hl hfind,
            loadStorage_of_initialized s hi]
      | none =>
        rw [asyncCall_playback_miss s fnOut args hmode hl hfind,
            loadStorage_of_initialized s hi]
  · intro s fnOut args hm
    rw [syncCall_playback s fnOut args hm]
    cases hpl : syncPlayLoad s (s.fs.readFile s.bb.storageFile) with
    | error e =>
      simp only []
      exact FS.readFile_reads s.fs _
    | ok s2 =>
      have hr := syncPlayLoad_reads s _ s2 hpl
      cases hfind : lookupKey s2.bb.storage (generateHash args) <;>
        simp only [hfind] <;> rw [hr, FS.readFile_reads]
  · intro s fnOut args hm
    exact syncCall_bypass s fnOut args hm
  · intro s fnOut args hi hm
    have hl : (loadStorage s).1 = .ok () := by rw [loadStorage_of_initialized s hi]
    cases hfind : lookupKey (loadStorage s).2.bb.storage (generateHash args) with
    | some v =>
      rw [asyncCall_playback_hit s fnOut args v hm hl hfind,
          loadStorage_of_initialized s hi]
    | none =>
      rw [asyncCall_playback_miss s fnOut args hm hl hfind,
          loadStorage_of_initialized s hi]

/-- Claim C8 counterexample: two consecutive synchronous Playback calls on
an already-initialized instance read the backing file twice, and the first
call alone replaces the in-memory mapping with the file contents — a
mutation caused by a Playback call, not a Record call. -/
theorem c8_lazy_load_counterexample :
    demoSyncReread.bb.initialized = true ∧
    (syncCall demoSyncReread (.ok .null) [.num 1]).returned.fs.reads = 1 ∧
    (syncCall (syncCall demoSyncReread (.ok .null) [.num 1]).returned
      (.ok .null) [.num 1]).returned.fs.reads = 2 ∧
    demoSyncReread.bb.storage = [("x", JVal.num 1)] ∧
    (syncCall demoSyncReread (.ok .null) [.num 1]).returned.bb.storage =
      [("y", JVal.num 2)] :=
  ⟨rfl, rfl, rfl, rfl, rfl⟩

/-- Witness for C8 (amended) at concrete states. -/
theorem c8_lazy_load_witness :
    loadStorage demoRecordReady = (.ok (), demoRecordReady) ∧
    (syncCall demoSyncReread (.ok .null) [.num 1]).returned.fs.reads =
      demoSyncReread.fs.reads + 1 :=
  ⟨c8_lazy_load_amended.1 demoRecordReady rfl,
   c8_lazy_load_amended.2.2.2.1 demoSyncReread (.ok .null) [.num 1] rfl⟩

/-- Claim C10: on the asynchronous wrapper, after a Record call for some
arguments completes — even when the persistence step failed — a subsequent
Playback call on the same instance with the same arguments is served from
the already-updated in-memory mapping: it returns the recorded result,
never invokes the wrapped function, and performs no further read of the
on-disk file. -/
theorem c10_memory_playback (s : St) (args : List JVal) (r : JVal)
    (fnOut2 : Except JsErr JVal) (hm : s.bb.mode = Mode.RECORD)
    (hl : (loadStorage s).1 = .ok ()) (hts : (trySerialize r).success = true) :
    (asyncCall (setMode (asyncCall s (.ok r) args).state Mode.PLAYBACK)
      fnOut2 args).result = .ok r ∧
    (asyncCall (setMode (asyncCall s (.ok r) args).state Mode.PLAYBACK)
      fnOut2 args).fnCalls = 0 ∧
    (asyncCall (setMode (asyncCall s (.ok r) args).state Mode.PLAYBACK)
      fnOut2 args).state.fs.reads = (asyncCall s (.ok r) args).state.fs.reads := by
  have h1 := asyncCall_record_ok s args r hm hl hts
  have hinit1 : (loadStorage s).2.bb.initialized = true := loadStorage_ok_init s hl
  have hbb : (setMode (recordedState (loadStorage s).2 (generateHash args) r)
      Mode.PLAYBACK).bb.initialized = true := by
    simp only [setMode, recordedState_bb]
    exact hinit1
  have hload2 := loadStorage_of_initialized _ hbb
  have hl2 : (loadStorage (setMode (recordedState (loadStorage s).2
      (generateHash args) r) Mode.PLAYBACK)).1 = .ok () := by rw [hload2]
  have hfind : lookupKey (loadStorage (setMode (recordedState (loadStorage s).2
        (generateHash args) r) Mode.PLAYBACK)).2.bb.storage
      (generateHash args) = some r := by
    rw [hload2]
    simp only [setMode, recordedState_bb]
    exact lookupKey_setEntry_self _ _ _
  have h2 := asyncCall_playback_hit
    (setMode (recordedState (loadStorage s).2 (generateHash args) r) Mode.PLAYBACK)
    fnOut2 args r rfl hl2 hfind
  rw [hload2] at h2
  simp only [h1, h2]
  exact ⟨trivial, trivial, rfl⟩

/-- Witness for C10: the Record call happens on an instance whose file
writes fail, so persistence cannot succeed, yet the subsequent Playback
call still returns the recorded value from memory. -/
theorem c10_memory_playback_witness :
    (asyncCall (setMode (asyncCall demoPersistFault (.ok (.num 5)) [.num 2, .num 3]).state
        Mode.PLAYBACK) (.error (.error "must not run")) [.num 2, .num 3]).result =
      .ok (.num 5) :=
  (c10_memory_playback demoPersistFault [.num 2, .num 3] (.num 5)
    (.error (.error "must not run")) rfl rfl rfl).1

/-- Claim C5 (as amended): on the asynchronous load path a file that is
present but fails to parse is renamed to the timestamped backup sibling,
the mapping is reset to empty, a diagnostic is emitted and the load
succeeds; any other non-missing I/O failure propagates as a fatal load
error.  The synchronous Playback load path performs the same corruption
recovery, but a non-missing, non-parse I/O failure there is silently
swallowed by its catch block (which has no rethrow branch): the call
continues with the previously loaded in-memory mapping and never surfaces
the load failure. -/
theorem c5_load_amended :
    (∀ (s : St) (text : String), s.bb.initialized = false →
      s.fs.readFault = false → s.fs.renameFault = false →
      lookupKey s.fs.files s.bb.storageFile = some (.raw text) →
      loadStorage s =
        (.ok (), { bb := { s.bb with storage := [], initialized := true },
                   fs := { s.fs with
                           files := setEntry (removeEntry s.fs.files s.bb.storageFile)
                             (backupName s.bb.storageFile s.fs.clock) (.raw text),
                           reads := s.fs.reads + 1 },
                   warns := s.warns ++
                     [corruptMessage (backupName s.bb.storageFile s.fs.clock)] })) ∧
    (∀ s : St, s.bb.initialized = false → s.fs.readFault = true →
      loadStorage s =
        (.error (.fsThrow .eio),
          { s with fs := { s.fs with reads := s.fs.reads + 1 } })) ∧
    (∀ (s : St) (fnOut : Except JsErr JVal) (args : List JVal) (text : String),
      s.bb.mode = Mode.PLAYBACK → s.fs.readFault = false →
      s.fs.renameFault = false →
      lookupKey s.fs.files s.bb.storageFile = some (.raw text) →
      (syncCall s fnOut args).result = .error (.error (notFoundMessage args)) ∧
      (syncCall s fnOut args).returned.bb.storage = [] ∧
      (syncCall s fnOut args).returned.warns =
        s.warns ++ [corruptMessage (backupName s.bb.storageFile s.fs.clock)] ∧
      lookupKey (syncCall s fnOut args).returned.fs.files
        (backupName s.bb.storageFile s.fs.clock) = some (.raw text)) ∧
    (∀ (s : St) (fnOut : Except JsErr JVal) (args : List JVal),
      s.bb.mode = Mode.PLAYBACK → s.fs.readFault = true →
      (syncCall s fnOut args).returned.bb.storage = s.bb.storage ∧
      (∀ v : JVal, lookupKey s.bb.storage (generateHash args) = some v →
        (syncCall s fnOut args).result = .ok v) ∧
      (∀ e : FsErr, (syncCall s fnOut args).result ≠ .error (.fsThrow e))) := by
  refine ⟨?_, ?_, ?_, ?_⟩
  · intro s text hinit hrf hrn hlook
    have hread := FS.readFile_found s.fs s.bb.storageFile (.raw text) hrf hlook
    unfold loadStorage
    rw [hinit]
    simp only [Bool.false_eq_true, if_false, hread]
    exact loadFrom_corrupt s _ text hrn hlook
  · intro s hinit hrf
    have hread := FS.readFile_fault s.fs s.bb.storageFile hrf
    unfold loadStorage
    rw [hinit]
    simp only [Bool.false_eq_true, if_false, hread, loadFrom]
  · intro s fnOut args text hm hrf hrn hlook
    have hread := FS.readFile_found s.fs s.bb.storageFile (.raw text) hrf hlook
    have hpl : syncPlayLoad s (s.fs.readFile s.bb.storageFile) =
        .ok { bb := { s.bb with storage := [], initialized := true },
              fs := { s.fs with
                      reads := s.fs.reads + 1,
                      files := setEntry (removeEntry s.fs.files s.bb.storageFile)
                        (backupName s.bb.storageFile s.fs.clock) (.raw text) },
              warns := s.warns ++
                [corruptMessage (backupName s.bb.storageFile s.fs.clock)] } := by
      rw [hread]
      exact syncPlayLoad_corrupt s _ text hrn hlook
    rw [syncCall_playback s fnOut args hm]
    simp only [hpl, lookupKey]
    exact ⟨trivial, trivial, trivial, lookupKey_setEntry_self _ _ _⟩
  · intro s fnOut args hm hrf
    have hread := FS.readFile_fault s.fs s.bb.storageFile hrf
    have hpl : syncPlayLoad s (s.fs.readFile s.bb.storageFile) =
        .ok { s with fs := { s.fs with reads := s.fs.reads + 1 } } := by
      rw [hread]
      exact syncPlayLoad_fault s _ rfl
    rw [syncCall_playback s fnOut args hm]
    simp only [hpl]
    refine ⟨?_, ?_, ?_⟩
    · cases hfind : lookupKey s.bb.storage (generateHash args) <;> simp only [hfind]
    · intro v hfind
      simp only [hfind]
    · intro e
      cases hfind : lookupKey s.bb.storage (generateHash args) <;> simp only [hfind] <;>
        intro heq <;> simp at heq

/-- Claim C5 counterexample: a non-missing I/O failure during the
synchronous Playback load is not propagated — the call silently continues
with the stale in-memory mapping and even serves a stored value from it,
without invoking the wrapped function. -/
theorem c5_load_counterexample :
    demoStale.fs.readFault = true ∧
    demoStale.bb.initialized = false ∧
    (syncCall demoStale (.error (.error "must not run")) [.num 4, .num 5]).result =
      .ok (.num 9) ∧
    (syncCall demoStale (.error (.error "must not run")) [.num 4, .num 5]).fnCalls = 0 :=
  ⟨rfl, rfl, rfl, rfl⟩

/-- Witness for C5 (amended) at the concrete corrupted and faulted states. -/
theorem c5_load_amended_witness :
    loadStorage demoCorrupt =
      (.ok (), { bb := { demoCorrupt.bb with storage := [], initialized := true },
                 fs := { demoCorrupt.fs with
                         files := setEntry (removeEntry demoCorrupt.fs.files
                             demoCorrupt.bb.storageFile)
                           (backupName demoCorrupt.bb.storageFile demoCorrupt.fs.clock)
                           (.raw "corrupted json"),
                         reads := demoCorrupt.fs.reads + 1 },
                 warns := demoCorrupt.warns ++
                   [corruptMessage (backupName demoCorrupt.bb.storageFile
                     demoCorrupt.fs.clock)] }) ∧
    loadStorage demoStale =
      (.error (.fsThrow .eio),
        { demoStale with fs := { demoStale.fs with reads := demoStale.fs.reads + 1 } }) :=
  ⟨c5_load_amended.1 demoCorrupt "corrupted json" rfl rfl rfl rfl,
   c5_load_amended.2.1 demoStale rfl rfl⟩

/-- Claim C6: a persist with an unencodable mapping aborts with only a
diagnostic and leaves the file system untouched; a successful encode is
written to the temporary sibling and atomically renamed over the target;
write or rename failures produce only diagnostics; in every case the target
path holds either its old contents or the complete new document; and a
persist failure never prevents the record-mode caller from receiving the
computed result. -/
theorem c6_persist_atomic (s : St) :
    ((trySerialize (.obj s.bb.storage)).success = false →
      saveStorage s =
        { s with warns := s.warns ++ ["Failed to save storage: " ++
            (trySerialize (.obj s.bb.storage)).error.getD "Unknown serialization error"] }) ∧
    ((trySerialize (.obj s.bb.storage)).success = true → s.fs.writeFault = false →
      s.fs.renameFault = false →
      saveStorage s =
        { s with fs := { s.fs with
            files := setEntry (removeEntry (setEntry s.fs.files
                (s.bb.storageFile ++ ".tmp") (.doc (storageDoc s)))
                (s.bb.storageFile ++ ".tmp"))
              s.bb.storageFile (.doc (storageDoc s)) } }) ∧
    ((trySerialize (.obj s.bb.storage)).success = true → s.fs.writeFault = true →
      saveStorage s =
        { s with warns := s.warns ++
            ["Failed to save storage file: " ++ jsErrMessage (.fsThrow .eio)] }) ∧
    ((trySerialize (.obj s.bb.storage)).success = true → s.fs.writeFault = false →
      s.fs.renameFault = true →
      saveStorage s =
        { s with
          fs := { s.fs with
            files := setEntry s.fs.files (s.bb.storageFile ++ ".tmp") (.doc (storageDoc s)) },
          warns := s.warns ++
            ["Failed to save storage file: " ++ jsErrMessage (.fsThrow .eio)] }) ∧
    (lookupKey (saveStorage s).fs.files s.bb.storageFile =
        lookupKey s.fs.files s.bb.storageFile ∨
      lookupKey (saveStorage s).fs.files s.bb.storageFile =
        some (.doc (storageDoc s))) ∧
    (∀ (args : List JVal) (r : JVal),
      s.bb.mode = Mode.RECORD → (loadStorage s).1 = .ok () →
      (asyncCall s (.ok r) args).result = .ok r) := by
  have htmp : s.bb.storageFile ++ ".tmp" ≠ s.bb.storageFile :=
    append_ne_self s.bb.storageFile ".tmp" (by decide)
  refine ⟨?_, ?_, ?_, ?_, ?_, ?_⟩
  · intro hts
    simp only [saveStorage, hts, Bool.false_eq_true, if_false]
  · intro hts hwf hrn
    have hw := FS.writeFile_ok s.fs (s.bb.storageFile ++ ".tmp") (.doc (storageDoc s)) hwf
    have hren := FS.rename_ok { s.fs with
        files := setEntry s.fs.files (s.bb.storageFile ++ ".tmp") (.doc (storageDoc s)) }
      (s.bb.storageFile ++ ".tmp") s.bb.storageFile (.doc (storageDoc s)) hrn
      (lookupKey_setEntry_self _ _ _)
    simp only [saveStorage, hts, if_true, hw, persistWrite, hren, persistRename]
  · intro hts hwf
    have hw := FS.writeFile_fault s.fs (s.bb.storageFile ++ ".tmp") (.doc (storageDoc s)) hwf
    simp only [saveStorage, hts, if_true, hw, persistWrite]
  · intro hts hwf hrn
    have hw := FS.writeFile_ok s.fs (s.bb.storageFile ++ ".tmp") (.doc (storageDoc s)) hwf
    have hren := FS.rename_fault { s.fs with
        files := setEntry s.fs.files (s.bb.storageFile ++ ".tmp") (.doc (storageDoc s)) }
      (s.bb.storageFile ++ ".tmp") s.bb.storageFile hrn
    simp only [saveStorage, hts, if_true, hw, persistWrite, hren, persistRename]
  · cases hts : (trySerialize (.obj s.bb.storage)).success with
    | false =>
      left
      simp only [saveStorage, hts, Bool.false_eq_true, if_false]
    | true =>
      cases hwf : s.fs.writeFault with
      | true =>
        left
        have hw := FS.writeFile_fault s.fs (s.bb.storageFile ++ ".tmp")
          (.doc (storageDoc s)) hwf
        simp only [saveStorage, hts, if_true, hw, persistWrite]
      | false =>
        have hw := FS.writeFile_ok s.fs (s.bb.storageFile ++ ".tmp")
          (.doc (storageDoc s)) hwf
        cases hrn : s.fs.renameFault with
        | true =>
          left
          have hren := FS.rename_fault { s.fs with
              files := setEntry s.fs.files (s.bb.storageFile ++ ".tmp")
                (.doc (storageDoc s)) }
            (s.bb.storageFile ++ ".tmp") s.bb.storageFile hrn
          simp only [saveStorage, hts, if_true, hw, persistWrite, hren, persistRename]
          exact lookupKey_setEntry_ne _ _ _ _ htmp
        | false =>
          right
          have hren := FS.rename_ok { s.fs with
              files := setEntry s.fs.files (s.bb.storageFile ++ ".tmp")
                (.doc (storageDoc s)) }
            (s.bb.storageFile ++ ".tmp") s.bb.storageFile (.doc (storageDoc s)) hrn
            (lookupKey_setEntry_self _ _ _)
          simp only [saveStorage, hts, if_true, hw, persistWrite, hren, persistRename]
          exact lookupKey_setEntry_self _ _ _
  · intro args r hm hl
    cases hts : (trySerialize r).success with
    | true => rw [asyncCall_record_ok s args r hm hl hts]
    | false => rw [asyncCall_record_encodefail s args r hm hl hts]

/-- Witness for C6 at a mapping that fails to encode and at one that
persists cleanly. -/
theorem c6_persist_atomic_witness :
    saveStorage demoBadStorage =
      { demoBadStorage with warns := demoBadStorage.warns ++
          ["Failed to save storage: " ++
            (trySerialize (.obj demoBadStorage.bb.storage)).error.getD
              "Unknown serialization error"] } ∧
    saveStorage demoRecordReady =
      { demoRecordReady with fs := { demoRecordReady.fs with
          files := setEntry (removeEntry (setEntry demoRecordReady.fs.files
              (demoRecordReady.bb.storageFile ++ ".tmp") (.doc (storageDoc demoRecordReady)))
              (demoRecordReady.bb.storageFile ++ ".tmp"))
            demoRecordReady.bb.storageFile (.doc (storageDoc demoRecordReady)) } } :=
  ⟨(c6_persist_atomic demoBadStorage).1 rfl,
   (c6_persist_atomic demoRecordReady).2.1 rfl rfl rfl⟩

end Beatbox
